import Mathlib

set_option maxHeartbeats 1000000
set_option maxRecDepth 65536

/-
Verification development for the olivexVS workflow-orchestration core:
a shallow embedding of src/claude/session-manager.ts (SessionManager) and
src/claude/cli-executor.ts (ClaudeCodeCLIExecutor), with theorems about
the workflow state machine, persistence round-trip, executor failure
handling, prompt offload, timeout handling and JSON output extraction.

Modelling conventions:
- JavaScript Date values are modelled as Nat milliseconds since the Unix
  epoch (a JS Date stores exactly an integral millisecond count).
- JSON values are an inductive type; JSON numbers are modelled as Int
  (the payloads this core manipulates use integral numbers).
- Asynchronous effects are modelled by explicit oracles: process outcome,
  disk-write success, the current clock value.  fs.writeFile is modelled
  as atomic: it either creates the full file or fails creating nothing.
- Promise rejection is modelled as Except.error; functions whose
  source-level promise can only resolve are given non-Except types.
-/

/-- JSON value, as produced by JSON.parse / consumed by JSON.stringify. -/
inductive Json where
  | null : Json
  | bool : Bool → Json
  | num : Int → Json
  | str : String → Json
  | arr : List Json → Json
  | obj : List (String × Json) → Json

/-- WorkflowStepType from session-manager.ts. -/
inductive StepName where
  | scan | fix | test | document
deriving DecidableEq

/-- WorkflowStepStatus from session-manager.ts. -/
inductive StepStatus where
  | pending | in_progress | completed | failed | skipped
deriving DecidableEq

/-- Session status union from WorkflowSession in session-manager.ts. -/
inductive SessionStatus where
  | pending | in_progress | completed | failed | cancelled
deriving DecidableEq

/-- WorkflowStep from session-manager.ts.  Optional fields model the
TypeScript optional properties; a value of none corresponds to the
property being absent/undefined. -/
structure WorkflowStep where
  name : StepName
  status : StepStatus
  sessionId : Option String := none
  result : Option Json := none
  error : Option String := none
  startedAt : Option Nat := none
  completedAt : Option Nat := none

/-- WorkflowSession from session-manager.ts. -/
structure WorkflowSession where
  id : String
  bugId : String
  bugTitle : String
  steps : List WorkflowStep
  currentStepIndex : Nat
  status : SessionStatus
  createdAt : Nat
  updatedAt : Nat
  claudeSessionId : Option String := none

/-- Bug input record: only the fields the session manager itself reads
(bug.id and bug.title); everything else is consumed by the external
prompt-builder collaborators, which are modelled as oracles. -/
structure Bug where
  id : String
  title : String

/- ---------------------------------------------------------------------
Date serialization.  JSON.stringify turns a Date into its toISOString()
form "YYYY-MM-DDTHH:MM:SS.mmmZ"; loadSessions revives it with new Date(s).
The calendar conversion uses the standard civil-from-days / days-from-civil
algorithms, which is what an exact model of the ECMAScript conversion
computes for timestamps in [0, year 10000).
--------------------------------------------------------------------- -/

/-- Gregorian leap-year test. -/
def isLeap (y : Nat) : Bool := (y % 4 == 0 && y % 100 != 0) || y % 400 == 0

/-- Length of a calendar year. -/
def daysInYear (y : Nat) : Nat := if isLeap y then 366 else 365

/-- Length of a calendar month (1-based). -/
def daysInMonth (y m : Nat) : Nat :=
  if m = 2 then (if isLeap y then 29 else 28)
  else if m = 4 || m = 6 || m = 9 || m = 11 then 30 else 31

/-- Total days of the k consecutive years starting at year y. -/
def sumYears (y : Nat) : Nat → Nat
  | 0 => 0
  | k + 1 => daysInYear y + sumYears (y + 1) k

/-- Days of year y strictly before month m (1-based). -/
def monthDays (y : Nat) : Nat → Nat
  | 0 => 0
  | 1 => 0
  | m + 2 => monthDays y (m + 1) + daysInMonth y (m + 1)

/-- Year search: peel whole years off a day count. -/
def yearFromDays : Nat → Nat → Nat → Nat × Nat
  | 0, y, z => (y, z)
  | fuel + 1, y, z =>
    if z < daysInYear y then (y, z) else yearFromDays fuel (y + 1) (z - daysInYear y)

/-- Month search: peel whole months off a day-of-year count. -/
def monthFromDays : Nat → Nat → Nat → Nat → Nat × Nat
  | 0, _, m, z => (m, z)
  | fuel + 1, y, m, z =>
    if z < daysInMonth y m then (m, z) else monthFromDays fuel y (m + 1) (z - daysInMonth y m)

/-- Calendar date (year, month, day) of a day count since 1970-01-01. -/
def civilFromDays (z : Nat) : Nat × Nat × Nat :=
  let yz := yearFromDays z 1970 z
  let mz := monthFromDays 12 yz.1 1 yz.2
  (yz.1, mz.1, mz.2 + 1)

/-- Day count since 1970-01-01 of a calendar date. -/
def daysFromCivil (y m d : Nat) : Nat :=
  sumYears 1970 (y - 1970) + monthDays y m + (d - 1)

/-- Decimal digit character of a value below ten. -/
def digitChar (n : Nat) : Char := Char.ofNat (48 + n)

/-- Two-digit zero-padded decimal rendering. -/
def twoDig (n : Nat) : List Char := [digitChar (n / 10), digitChar (n % 10)]

/-- Three-digit zero-padded decimal rendering. -/
def threeDig (n : Nat) : List Char :=
  [digitChar (n / 100), digitChar (n / 10 % 10), digitChar (n % 10)]

/-- Four-digit zero-padded decimal rendering. -/
def fourDig (n : Nat) : List Char :=
  [digitChar (n / 1000), digitChar (n / 100 % 10), digitChar (n / 10 % 10), digitChar (n % 10)]

/-- Model of Date.prototype.toISOString for a millisecond timestamp:
"YYYY-MM-DDTHH:MM:SS.mmmZ" (years below 10000). -/
def isoOfMs (t : Nat) : String :=
  let days := t / 86400000
  let r := t % 86400000
  let ymd := civilFromDays days
  String.mk (fourDig ymd.1 ++ '-' :: twoDig ymd.2.1 ++ '-' :: twoDig ymd.2.2
    ++ 'T' :: twoDig (r / 3600000) ++ ':' :: twoDig (r % 3600000 / 60000)
    ++ ':' :: twoDig (r % 60000 / 1000) ++ '.' :: threeDig (r % 1000) ++ ['Z'])

/-- Numeric value of a decimal digit character. -/
def digitVal (c : Char) : Nat := c.toNat - 48

/-- Digit-character test on the ASCII range. -/
def isDig (c : Char) : Bool := 48 ≤ c.toNat && c.toNat ≤ 57

/-- Millisecond timestamp from parsed ISO components. -/
def msOfComponents (y mo d h mi se ms : Nat) : Nat :=
  daysFromCivil y mo d * 86400000 + h * 3600000 + mi * 60000 + se * 1000 + ms

/-- Model of new Date(s).getTime() on the canonical ISO form produced by
toISOString; any other shape yields none (an Invalid Date). -/
def msOfIso (s : String) : Option Nat :=
  match s.data with
  | [y1, y2, y3, y4, a1, o1, o2, a2, d1, d2, a3, h1, h2, a4, i1, i2, a5, e1, e2, a6, m1, m2, m3, a7] =>
    if (a1 = '-' ∧ a2 = '-' ∧ a3 = 'T' ∧ a4 = ':' ∧ a5 = ':' ∧ a6 = '.' ∧ a7 = 'Z')
        ∧ ([y1, y2, y3, y4, o1, o2, d1, d2, h1, h2, i1, i2, e1, e2, m1, m2, m3].all isDig)
        ∧ (let mo := digitVal o1 * 10 + digitVal o2
           let d := digitVal d1 * 10 + digitVal d2
           let h := digitVal h1 * 10 + digitVal h2
           let mi := digitVal i1 * 10 + digitVal i2
           let se := digitVal e1 * 10 + digitVal e2
           1 ≤ mo ∧ mo ≤ 12 ∧ 1 ≤ d ∧ d ≤ 31 ∧ h ≤ 23 ∧ mi ≤ 59 ∧ se ≤ 59) then
      some (msOfComponents
        (digitVal y1 * 1000 + digitVal y2 * 100 + digitVal y3 * 10 + digitVal y4)
        (digitVal o1 * 10 + digitVal o2)
        (digitVal d1 * 10 + digitVal d2)
        (digitVal h1 * 10 + digitVal h2)
        (digitVal i1 * 10 + digitVal i2)
        (digitVal e1 * 10 + digitVal e2)
        (digitVal m1 * 100 + digitVal m2 * 10 + digitVal m3))
    else none
  | _ => none

/- ---------------------------------------------------------------------
Session persistence: saveSession serializes with JSON.stringify (model:
an explicit Json object per field, Dates as ISO strings, undefined
optional properties dropped); loadSessions parses the JSON and revives
the four Date fields (createdAt, updatedAt, startedAt, completedAt).
--------------------------------------------------------------------- -/

/-- String form of a step status, as JSON.stringify writes it. -/
def stepStatusStr : StepStatus → String
  | .pending => "pending"
  | .in_progress => "in_progress"
  | .completed => "completed"
  | .failed => "failed"
  | .skipped => "skipped"

/-- Step status parsed back from its string form. -/
def stepStatusOfStr (s : String) : Option StepStatus :=
  if s = "pending" then some .pending
  else if s = "in_progress" then some .in_progress
  else if s = "completed" then some .completed
  else if s = "failed" then some .failed
  else if s = "skipped" then some .skipped
  else none

/-- String form of a session status. -/
def sessionStatusStr : SessionStatus → String
  | .pending => "pending"
  | .in_progress => "in_progress"
  | .completed => "completed"
  | .failed => "failed"
  | .cancelled => "cancelled"

/-- Session status parsed back from its string form. -/
def sessionStatusOfStr (s : String) : Option SessionStatus :=
  if s = "pending" then some .pending
  else if s = "in_progress" then some .in_progress
  else if s = "completed" then some .completed
  else if s = "failed" then some .failed
  else if s = "cancelled" then some .cancelled
  else none

/-- String form of a step name. -/
def stepNameStr : StepName → String
  | .scan => "scan"
  | .fix => "fix"
  | .test => "test"
  | .document => "document"

/-- Step name parsed back from its string form. -/
def stepNameOfStr (s : String) : Option StepName :=
  if s = "scan" then some .scan
  else if s = "fix" then some .fix
  else if s = "test" then some .test
  else if s = "document" then some .document
  else none

/-- Optional object property: JSON.stringify drops properties whose value
is undefined, so a none field contributes no key. -/
def optField (k : String) : Option Json → List (String × Json)
  | some j => [(k, j)]
  | none => []

/-- Serialized form of one WorkflowStep inside the session record. -/
def stepToJson (s : WorkflowStep) : Json :=
  Json.obj ([("name", Json.str (stepNameStr s.name)),
    ("status", Json.str (stepStatusStr s.status))]
    ++ optField "sessionId" (s.sessionId.map Json.str)
    ++ optField "result" s.result
    ++ optField "error" (s.error.map Json.str)
    ++ optField "startedAt" (s.startedAt.map (fun t => Json.str (isoOfMs t)))
    ++ optField "completedAt" (s.completedAt.map (fun t => Json.str (isoOfMs t))))

/-- Serialized form of a WorkflowSession, as JSON.stringify(session)
writes it in SessionManager.saveSession. -/
def sessionToJson (s : WorkflowSession) : Json :=
  Json.obj ([("id", Json.str s.id),
    ("bugId", Json.str s.bugId),
    ("bugTitle", Json.str s.bugTitle),
    ("steps", Json.arr (s.steps.map stepToJson)),
    ("currentStepIndex", Json.num s.currentStepIndex),
    ("status", Json.str (sessionStatusStr s.status)),
    ("createdAt", Json.str (isoOfMs s.createdAt)),
    ("updatedAt", Json.str (isoOfMs s.updatedAt))]
    ++ optField "claudeSessionId" (s.claudeSessionId.map Json.str))

/-- Property lookup on a JSON object body. -/
def jLookup : List (String × Json) → String → Option Json
  | [], _ => none
  | (k, v) :: rest, key => if k = key then some v else jLookup rest key

/-- String content of an optional JSON value, if it is a string. -/
def asStr : Option Json → Option String
  | some (Json.str s) => some s
  | _ => none

/-- Date revival of an optional serialized timestamp, as loadSessions
does with: if (step.startedAt) step.startedAt = new Date(step.startedAt).
Absent property stays absent; a present string is parsed as a Date. -/
def optTime : Option Json → Option (Option Nat)
  | none => some none
  | some (Json.str s) => (msOfIso s).map some
  | some _ => none

/-- Deserialization of one step from the persisted record, including the
Date revival loadSessions applies to startedAt/completedAt. -/
def jsonToStep : Json → Option WorkflowStep
  | Json.obj kvs => do
    let nm ← asStr (jLookup kvs "name") >>= stepNameOfStr
    let st ← asStr (jLookup kvs "status") >>= stepStatusOfStr
    let sa ← optTime (jLookup kvs "startedAt")
    let ca ← optTime (jLookup kvs "completedAt")
    pure { name := nm
           status := st
           sessionId := asStr (jLookup kvs "sessionId")
           result := jLookup kvs "result"
           error := asStr (jLookup kvs "error")
           startedAt := sa
           completedAt := ca }
  | _ => none

/-- Deserialization of a session record, as loadSessions performs it:
JSON.parse followed by reviving createdAt, updatedAt and each step's
startedAt/completedAt as Dates. -/
def jsonToSession : Json → Option WorkflowSession
  | Json.obj kvs => do
    let id ← asStr (jLookup kvs "id")
    let bugId ← asStr (jLookup kvs "bugId")
    let bugTitle ← asStr (jLookup kvs "bugTitle")
    let stepsJson ← match jLookup kvs "steps" with
      | some (Json.arr l) => some l
      | _ => none
    let steps ← stepsJson.mapM jsonToStep
    let idx ← match jLookup kvs "currentStepIndex" with
      | some (Json.num n) => n.toNat'
      | _ => none
    let st ← asStr (jLookup kvs "status") >>= sessionStatusOfStr
    let ca ← asStr (jLookup kvs "createdAt") >>= msOfIso
    let ua ← asStr (jLookup kvs "updatedAt") >>= msOfIso
    pure { id := id
           bugId := bugId
           bugTitle := bugTitle
           steps := steps
           currentStepIndex := idx
           status := st
           createdAt := ca
           updatedAt := ua
           claudeSessionId := asStr (jLookup kvs "claudeSessionId") }
  | _ => none

/- ---------------------------------------------------------------------
SessionManager state and transition operations.  The in-memory Map and
the on-disk store are both association lists keyed by session id.  Every
operation calls saveSession, which swallows any disk error (modelled by
the diskOk flag) and whose completion the operations never await.
--------------------------------------------------------------------- -/

/-- Association-list update: replace the first binding of the key, or
append a new binding (Map.set / one-file-per-session write). -/
def mapSet {α : Type} : List (String × α) → String → α → List (String × α)
  | [], k, v => [(k, v)]
  | (k', v') :: rest, k, v =>
    if k' = k then (k, v) :: rest else (k', v') :: mapSet rest k v

/-- Association-list lookup (Map.get). -/
def mapGet {α : Type} : List (String × α) → String → Option α
  | [], _ => none
  | (k', v) :: rest, k => if k' = k then some v else mapGet rest k

/-- In-memory and persisted state owned by the SessionManager. -/
structure MgrState where
  sessions : List (String × WorkflowSession)
  disk : List (String × Json)

/-- SessionManager.saveSession: serializes the session to disk; a write
failure (diskOk = false) is caught and swallowed, leaving the previous
disk contents intact. -/
def saveSession (diskOk : Bool) (s : WorkflowSession) (st : MgrState) : MgrState :=
  if diskOk then { st with disk := mapSet st.disk s.id (sessionToJson s) } else st

/-- Common tail of every transition: store the updated session in the
in-memory map and issue the (never-awaited) save. -/
def saveSet (diskOk : Bool) (sid : String) (s' : WorkflowSession) (st : MgrState) : MgrState :=
  saveSession diskOk s' { st with sessions := mapSet st.sessions sid s' }

/-- Fresh session record built by SessionManager.createSession: all
steps pending, status pending.  The generated id and the current clock
are passed explicitly. -/
def createdSession (bug : Bug) (stepTypes : List StepName) (sid : String)
    (now : Nat) : WorkflowSession :=
  { id := sid
    bugId := bug.id
    bugTitle := bug.title
    steps := stepTypes.map (fun n => { name := n, status := .pending })
    currentStepIndex := 0
    status := .pending
    createdAt := now
    updatedAt := now }

/-- SessionManager.createSession, continued: stores the fresh session in
memory and issues a save. -/
def createSession (bug : Bug) (stepTypes : List StepName) (sid : String)
    (now : Nat) (diskOk : Bool) (st : MgrState) : WorkflowSession × MgrState :=
  let session := createdSession bug stepTypes sid now
  (session, saveSet diskOk sid session st)

/-- List update at an index, for the in-place step mutations. -/
def setStep : List WorkflowStep → Nat → (WorkflowStep → WorkflowStep) → List WorkflowStep
  | [], _, _ => []
  | w :: rest, 0, f => f w :: rest
  | w :: rest, i + 1, f => w :: setStep rest i f

/-- Model of the truthiness-guarded assignment x = upd || x used for the
claudeSessionId propagation (a nonempty string replaces, anything falsy
keeps the old value). -/
def orTruthy (upd old : Option String) : Option String :=
  match upd with
  | some s => if s = "" then old else some s
  | none => old

/-- Completion test used by completeStep: every step completed or skipped. -/
def allCompletedOrSkipped (steps : List WorkflowStep) : Bool :=
  steps.all (fun s => s.status = .completed || s.status = .skipped)

/-- Step mutation performed by startStep. -/
def startStepUpd (now : Nat) (s : WorkflowStep) : WorkflowStep :=
  { s with status := .in_progress, startedAt := some now }

/-- Step mutation performed by completeStep. -/
def completeStepUpd (result : Json) (claudeSessionId : Option String) (now : Nat)
    (s : WorkflowStep) : WorkflowStep :=
  { s with
    status := .completed
    result := some result
    completedAt := some now
    sessionId := orTruthy claudeSessionId s.sessionId }

/-- Step mutation performed by failStep. -/
def failStepUpd (err : String) (now : Nat) (s : WorkflowStep) : WorkflowStep :=
  { s with status := .failed, error := some err, completedAt := some now }

/-- Step mutation performed by skipStep. -/
def skipStepUpd (s : WorkflowStep) : WorkflowStep := { s with status := .skipped }

/-- Session after startStep's mutations. -/
def startStepSession (sess : WorkflowSession) (i : Nat) (now : Nat) : WorkflowSession :=
  { sess with
    steps := setStep sess.steps i (startStepUpd now)
    currentStepIndex := i
    updatedAt := now }

/-- Session after completeStep's mutations, including the conditional
promotion of the session status to Completed. -/
def completeStepSession (sess : WorkflowSession) (i : Nat) (r : Json) (c : Option String)
    (now : Nat) : WorkflowSession :=
  let steps' := setStep sess.steps i (completeStepUpd r c now)
  let s1 := { sess with
    steps := steps'
    claudeSessionId := orTruthy c sess.claudeSessionId
    updatedAt := now }
  if allCompletedOrSkipped steps' then { s1 with status := .completed } else s1

/-- Session after failStep's mutations. -/
def failStepSession (sess : WorkflowSession) (i : Nat) (e : String) (now : Nat) :
    WorkflowSession :=
  { sess with
    steps := setStep sess.steps i (failStepUpd e now)
    status := .failed
    updatedAt := now }

/-- Session after skipStep's mutation (status untouched). -/
def skipStepSession (sess : WorkflowSession) (i : Nat) (now : Nat) : WorkflowSession :=
  { sess with steps := setStep sess.steps i skipStepUpd, updatedAt := now }

/-- SessionManager.startSession: session status becomes in_progress;
throws if the session does not exist. -/
def startSession (sid : String) (now : Nat) (diskOk : Bool) (st : MgrState) :
    Except String MgrState :=
  match mapGet st.sessions sid with
  | none => .error ("Session " ++ sid ++ " not found")
  | some session =>
    .ok (saveSet diskOk sid { session with status := .in_progress, updatedAt := now } st)

/-- SessionManager.startStep: the step becomes in_progress with startedAt
recorded, currentStepIndex moves to it; throws on a missing session/step. -/
def startStep (sid : String) (i : Nat) (now : Nat) (diskOk : Bool) (st : MgrState) :
    Except String MgrState :=
  match mapGet st.sessions sid with
  | none => .error ("Session " ++ sid ++ " not found")
  | some session =>
    match session.steps.get? i with
    | none => .error ("Step " ++ toString i ++ " not found in session " ++ sid)
    | some _ => .ok (saveSet diskOk sid (startStepSession session i now) st)

/-- SessionManager.completeStep: the step becomes completed with its
result; a provided claudeSessionId is stored on both step and session;
the session becomes completed when every step is completed or skipped. -/
def completeStep (sid : String) (i : Nat) (result : Json)
    (claudeSessionId : Option String) (now : Nat) (diskOk : Bool) (st : MgrState) :
    Except String MgrState :=
  match mapGet st.sessions sid with
  | none => .error ("Session " ++ sid ++ " not found")
  | some session =>
    match session.steps.get? i with
    | none => .error ("Step " ++ toString i ++ " not found in session " ++ sid)
    | some _ => .ok (saveSet diskOk sid (completeStepSession session i result claudeSessionId now) st)

/-- SessionManager.failStep: the step becomes failed with the error and
the session becomes failed unconditionally. -/
def failStep (sid : String) (i : Nat) (err : String) (now : Nat) (diskOk : Bool)
    (st : MgrState) : Except String MgrState :=
  match mapGet st.sessions sid with
  | none => .error ("Session " ++ sid ++ " not found")
  | some session =>
    match session.steps.get? i with
    | none => .error ("Step " ++ toString i ++ " not found in session " ++ sid)
    | some _ => .ok (saveSet diskOk sid (failStepSession session i err now) st)

/-- SessionManager.skipStep: the step becomes skipped; the session status
is left untouched (no recomputation happens here in the source). -/
def skipStep (sid : String) (i : Nat) (now : Nat) (diskOk : Bool) (st : MgrState) :
    Except String MgrState :=
  match mapGet st.sessions sid with
  | none => .error ("Session " ++ sid ++ " not found")
  | some session =>
    match session.steps.get? i with
    | none => .error ("Step " ++ toString i ++ " not found in session " ++ sid)
    | some _ => .ok (saveSet diskOk sid (skipStepSession session i now) st)

/-- SessionManager.cancelSession: the session status becomes cancelled. -/
def cancelSession (sid : String) (now : Nat) (diskOk : Bool) (st : MgrState) :
    Except String MgrState :=
  match mapGet st.sessions sid with
  | none => .error ("Session " ++ sid ++ " not found")
  | some session =>
    .ok (saveSet diskOk sid { session with status := .cancelled, updatedAt := now } st)

/- ---------------------------------------------------------------------
External executor model (cli-executor.ts).  The external process, the
clock and the scratch-directory disk operations are oracles in ExecEnv.
--------------------------------------------------------------------- -/

/-- Output format union from CLIExecutionOptions. -/
inductive OutputFormat where
  | text | json | streamJson
deriving DecidableEq

/-- Flag value of an output format. -/
def outputFormatStr : OutputFormat → String
  | .text => "text"
  | .json => "json"
  | .streamJson => "stream-json"

/-- CLIExecutionOptions from cli-executor.ts. -/
structure CLIExecutionOptions where
  prompt : String
  workingDir : Option String := none
  outputFormat : Option OutputFormat := none
  jsonSchema : Option Json := none
  allowedTools : Option (List String) := none
  appendSystemPrompt : Option String := none
  sessionId : Option String := none
  resume : Bool := false
  timeout : Option Nat := none
  maxTurns : Option Nat := none

/-- CLIExecutionResult from cli-executor.ts.  output is the typed payload
(Json.null models the null placed there on failures, Json.str the raw
stdout of a text-mode run, and a parsed value in json mode). -/
structure CLIExecutionResult where
  success : Bool
  output : Json
  rawOutput : String
  sessionId : Option String := none
  error : Option String := none

/-- Behaviour of the spawned subprocess: normal close (with exit time,
exit code, full stdout/stderr and the stdout received by the timeout
moment), an error event, or never exiting. -/
inductive ProcOutcome where
  | closes (time : Nat) (code : Option Int) (stdout stderr : String) (sofar : String)
  | errs (time : Nat) (msg : String) (sofar : String)
  | hangs (sofar : String)

/-- Environment oracle for one execute call: tool availability probe
outcome, scratch-directory mkdir/write success, the Date.now() value used
for the temp-file name, and the subprocess behaviour. -/
structure ExecEnv where
  installed : Bool
  mkdirOk : Bool
  writeOk : Bool
  now : Nat
  proc : ProcOutcome

/-- Observable executor events: process spawn (with full argument list
and working directory), the SIGTERM kill on timeout, and scratch-file
creation/deletion. -/
inductive ExecEv where
  | spawn (cmd : String) (args : List String) (cwd : String)
  | kill
  | fileCreate (path : String)
  | fileDelete (path : String)
deriving DecidableEq

/-- Escape of double quotes applied to the appended system prompt. -/
def escapeQuotes (s : String) : String := s.replace "\"" "\\\""

/-- ClaudeCodeCLIExecutor.buildCommandArgs: the flag list, including the
truthiness-guarded optional flags exactly as the source checks them. -/
def buildCommandArgs (o : CLIExecutionOptions) : List String :=
  ["-p"]
  ++ (match o.outputFormat with
      | some f => ["--output-format", outputFormatStr f]
      | none => [])
  ++ (if o.jsonSchema.isSome ∧ o.outputFormat = some .json then
        ["--output-format", "json"]
      else [])
  ++ (match o.allowedTools with
      | some ts => if 0 < ts.length then ["--allowedTools", String.intercalate "," ts] else []
      | none => [])
  ++ (match o.appendSystemPrompt with
      | some sp => if sp = "" then [] else ["--append-system-prompt", "\"" ++ escapeQuotes sp ++ "\""]
      | none => [])
  ++ (if o.resume then
        (match o.sessionId with
         | some sid => if sid = "" then [] else ["--resume", sid]
         | none => [])
      else [])
  ++ (match o.maxTurns with
      | some n => if n ≠ 0 then ["--max-turns", toString n] else []
      | none => [])

/-- Message "Process exited with code N" used when stderr is empty. -/
def procExitMsg (code : Option Int) : String :=
  "Process exited with code " ++ (match code with
    | some c => toString c
    | none => "null")

/-- Trailing-zero trimming for the fractional part of a decimal. -/
def dropTrailingZeros (cs : List Char) : List Char :=
  (cs.reverse.dropWhile (fun c => c = '0')).reverse

/-- Rendering of timeout/1000 as JavaScript prints the division result
(integral values without a fraction, e.g. 100/1000 prints as 0.1). -/
def secondsStr (t : Nat) : String :=
  let q := t / 1000
  let r := t % 1000
  if r = 0 then toString q
  else toString q ++ "." ++ String.mk (dropTrailingZeros (threeDig r))

/-- Timeout failure message from executeDirectly. -/
def timeoutMsg (t : Nat) : String :=
  "Execution timed out after " ++ secondsStr t ++ " seconds"

/-- ClaudeCodeCLIExecutor.executeDirectly: spawns the tool with the
prompt appended as the last argument; a close before the timeout yields
success on exit code 0 and a stderr-based failure otherwise; reaching the
timeout kills the process and resolves a timeout-specific failure.  This
promise only ever resolves. -/
def executeDirectly (args : List String) (prompt : String) (cwd : String)
    (timeout : Nat) (proc : ProcOutcome) : CLIExecutionResult × List ExecEv :=
  let fullArgs := args ++ [prompt]
  let spawnEv := ExecEv.spawn "claude" fullArgs cwd
  match proc with
  | .closes t code stdout stderr _ =>
    if t < timeout then
      if code = some 0 then
        ({ success := true, output := .str stdout, rawOutput := stdout }, [spawnEv])
      else
        ({ success := false, output := .null, rawOutput := stdout,
           error := some (if stderr = "" then procExitMsg code else stderr) }, [spawnEv])
    else
      ({ success := false, output := .null,
         rawOutput := (match proc with
           | .closes _ _ _ _ sofar => sofar
           | .errs _ _ sofar => sofar
           | .hangs sofar => sofar),
         error := some (timeoutMsg timeout) }, [spawnEv, .kill])
  | .errs t msg _ =>
    if t < timeout then
      ({ success := false, output := .null, rawOutput := "", error := some msg }, [spawnEv])
    else
      ({ success := false, output := .null,
         rawOutput := (match proc with
           | .closes _ _ _ _ sofar => sofar
           | .errs _ _ sofar => sofar
           | .hangs sofar => sofar),
         error := some (timeoutMsg timeout) }, [spawnEv, .kill])
  | .hangs sofar =>
      ({ success := false, output := .null, rawOutput := sofar,
         error := some (timeoutMsg timeout) }, [spawnEv, .kill])

/-- Scratch-file path .olivex/temp/prompt-<Date.now()>.md inside the
workspace root (path.join modelled as slash concatenation). -/
def tempFilePath (workspaceRoot : String) (now : Nat) : String :=
  workspaceRoot ++ "/.olivex/temp/prompt-" ++ toString now ++ ".md"

/-- Short wrapper prompt referencing the scratch file by path. -/
def wrapperPrompt (path : String) : String :=
  "Please read and follow the instructions in @" ++ path

/-- ClaudeCodeCLIExecutor.executeWithPromptFile: writes the oversized
prompt to the scratch file, runs the tool with a short wrapper prompt
referencing it, and unlinks the file after the run on every path (the
inner call only resolves, so the unlink is always reached; the unlink
itself is issued with its own error swallowed).  mkdir/write failures
reject before any file exists (writes modelled as atomic). -/
def executeWithPromptFile (workspaceRoot : String) (args : List String)
    (_prompt : String) (cwd : String) (timeout : Nat) (env : ExecEnv) :
    Except String (CLIExecutionResult × List ExecEv) :=
  if env.mkdirOk = false then .error "ENOENT: no such file or directory, mkdir"
  else if env.writeOk = false then .error "ENOSPC: no space left on device, write"
  else
    let tempFile := tempFilePath workspaceRoot env.now
    let run := executeDirectly args (wrapperPrompt tempFile) cwd timeout env.proc
    .ok (run.1, .fileCreate tempFile :: run.2 ++ [.fileDelete tempFile])

/-- ClaudeCodeCLIExecutor.executeWithPrompt: prompts longer than 6000
characters take the scratch-file path, all others are passed inline. -/
def executeWithPrompt (workspaceRoot : String) (args : List String)
    (prompt : String) (cwd : String) (timeout : Nat) (env : ExecEnv) :
    Except String (CLIExecutionResult × List ExecEv) :=
  if 6000 < prompt.length then
    executeWithPromptFile workspaceRoot args prompt cwd timeout env
  else
    .ok (executeDirectly args prompt cwd timeout env.proc)

/- ---------------------------------------------------------------------
JSON output extraction (parseJsonOutput).  The substring selection models
the regex match /\x7b[\s\S]*\x7d/ (first opening brace through the last
closing brace); JSON.parse is modelled by a recursive-descent parser over
the JSON grammar restricted to integral numbers and the basic string
escapes (the payloads this core exchanges stay inside that fragment).
--------------------------------------------------------------------- -/

/-- Whitespace test for the JSON grammar. -/
def isWs (c : Char) : Bool := c = ' ' || c = '\n' || c = '\t' || c = '\r'

/-- Leading-whitespace removal. -/
def skipWs (cs : List Char) : List Char := cs.dropWhile isWs

/-- String-literal body parser (after the opening quote), with the basic
escape sequences. -/
def parseJString : Nat → List Char → List Char → Option (String × List Char)
  | 0, _, _ => none
  | _ + 1, [], _ => none
  | fuel + 1, c :: rest, acc =>
    if c = '"' then some (String.mk acc.reverse, rest)
    else if c = '\\' then
      match rest with
      | [] => none
      | e :: rest' =>
        if e = '"' then parseJString fuel rest' ('"' :: acc)
        else if e = '\\' then parseJString fuel rest' ('\\' :: acc)
        else if e = '/' then parseJString fuel rest' ('/' :: acc)
        else if e = 'n' then parseJString fuel rest' ('\n' :: acc)
        else if e = 't' then parseJString fuel rest' ('\t' :: acc)
        else if e = 'r' then parseJString fuel rest' ('\r' :: acc)
        else none
    else parseJString fuel rest (c :: acc)

/-- Decimal-digit run consumed into an accumulator. -/
def takeDigits : List Char → Nat → Nat × List Char
  | [], acc => (acc, [])
  | c :: rest, acc =>
    if isDig c then takeDigits rest (acc * 10 + digitVal c) else (acc, c :: rest)

/-- Test for a character that would continue a non-integral number. -/
def numBadNext : List Char → Bool
  | [] => false
  | c :: _ => c = '.' || c = 'e' || c = 'E'

/-- Integral JSON number literal. -/
def parseIntLit (cs : List Char) : Option (Json × List Char) :=
  match cs with
  | '-' :: c :: rest =>
    if isDig c then
      let td := takeDigits (c :: rest) 0
      if numBadNext td.2 then none else some (.num (-(td.1 : Int)), td.2)
    else none
  | c :: _ =>
    if isDig c then
      let td := takeDigits cs 0
      if numBadNext td.2 then none else some (.num (td.1 : Int), td.2)
    else none
  | [] => none

mutual

/-- JSON value parser (fuelled recursive descent). -/
def parseVal : Nat → List Char → Option (Json × List Char)
  | 0, _ => none
  | fuel + 1, cs =>
    match skipWs cs with
    | [] => none
    | 'n' :: 'u' :: 'l' :: 'l' :: rest => some (.null, rest)
    | 't' :: 'r' :: 'u' :: 'e' :: rest => some (.bool true, rest)
    | 'f' :: 'a' :: 'l' :: 's' :: 'e' :: rest => some (.bool false, rest)
    | '"' :: rest =>
      match parseJString (rest.length + 1) rest [] with
      | some (s, rest') => some (.str s, rest')
      | none => none
    | '[' :: rest =>
      (match skipWs rest with
       | ']' :: rest' => some (.arr [], rest')
       | _ => parseArrItems fuel rest [])
    | '\x7b' :: rest =>
      (match skipWs rest with
       | '\x7d' :: rest' => some (.obj [], rest')
       | _ => parseObjItems fuel rest [])
    | other => parseIntLit other

/-- Comma-separated array items up to the closing bracket. -/
def parseArrItems : Nat → List Char → List Json → Option (Json × List Char)
  | 0, _, _ => none
  | fuel + 1, cs, acc =>
    match parseVal fuel cs with
    | none => none
    | some (v, rest) =>
      match skipWs rest with
      | ',' :: rest' => parseArrItems fuel rest' (acc ++ [v])
      | ']' :: rest' => some (.arr (acc ++ [v]), rest')
      | _ => none

/-- Comma-separated object members up to the closing brace. -/
def parseObjItems : Nat → List Char → List (String × Json) → Option (Json × List Char)
  | 0, _, _ => none
  | fuel + 1, cs, acc =>
    match skipWs cs with
    | '"' :: rest =>
      (match parseJString (rest.length + 1) rest [] with
       | none => none
       | some (k, rest') =>
         match skipWs rest' with
         | ':' :: rest'' =>
           (match parseVal fuel rest'' with
            | none => none
            | some (v, rest3) =>
              match skipWs rest3 with
              | ',' :: rest4 => parseObjItems fuel rest4 (acc ++ [(k, v)])
              | '\x7d' :: rest4 => some (.obj (acc ++ [(k, v)]), rest4)
              | _ => none)
         | _ => none)
    | _ => none

end

/-- Model of JSON.parse: a full JSON value with only trailing whitespace
allowed after it (anything else raises a parse error). -/
def jsonParse (s : String) : Option Json :=
  match parseVal (2 * s.data.length + 2) s.data with
  | some (v, rest) => if skipWs rest = [] then some v else none
  | none => none

/-- Substring selected by the extraction regex: from the first opening
brace through the last closing brace of the output, provided a closing
brace occurs after the first opening brace. -/
def extractJson (s : String) : Option String :=
  let cs := s.data
  match cs.findIdx? (fun c => c = '\x7b') with
  | none => none
  | some i =>
    match cs.reverse.findIdx? (fun c => c = '\x7d') with
    | none => none
    | some ri =>
      let j := cs.length - 1 - ri
      if i < j then some (String.mk ((cs.drop i).take (j - i + 1))) else none

/-- Session id extracted from the parsed payload, modelling
parsed.session_id || parsed.sessionId with string values. -/
def sidOfParsed : Json → Option String
  | Json.obj kvs =>
    (match asStr (jLookup kvs "session_id") with
     | some s => if s = "" then asStr (jLookup kvs "sessionId") else some s
     | none => asStr (jLookup kvs "sessionId"))
  | _ => none

/-- ClaudeCodeCLIExecutor.parseJsonOutput: extract the brace-delimited
substring, JSON.parse it, and pull out an optional session id; a missing
substring or a parse failure throws (Except.error). -/
def parseJsonOutput (s : String) : Except String (Json × Option String) :=
  match extractJson s with
  | none => .error "No JSON object found in output"
  | some sub =>
    match jsonParse sub with
    | none => .error "Unexpected token in JSON"
    | some v => .ok (v, sidOfParsed v)

/-- Modelled from the spec: "locate the first top-level JSON object
within the raw text output ... and parse it" — the first position whose
suffix parses as a JSON object, ignoring whatever follows that object.
This is the specification-side reading, to be compared with the
implementation's extractJson/jsonParse pipeline. -/
def specFirstTopLevelJson : List Char → Option Json
  | [] => none
  | c :: rest =>
    if c = '\x7b' then
      match parseVal (2 * (c :: rest).length + 2) (c :: rest) with
      | some (Json.obj kvs, _) => some (Json.obj kvs)
      | _ => specFirstTopLevelJson rest
    else specFirstTopLevelJson rest

/- ---------------------------------------------------------------------
ClaudeCodeCLIExecutor.execute: availability probe, argument construction,
prompt dispatch, and json-mode post-processing.  Every failure is
resolved into a CLIExecutionResult; the returned promise never rejects,
which the total (non-Except) return type of this model reflects — the
one internal rejection source (executeWithPrompt) is caught here.
--------------------------------------------------------------------- -/

/-- Failure message returned when the availability probe fails. -/
def notInstalledMsg : String :=
  "Claude Code CLI is not installed. Please install it from https://claude.ai/code"

/-- Effective timeout: options.timeout || 120000 — the 2-minute default
applies when the field is absent and also when it is 0 (falsy). -/
def effectiveTimeout (o : CLIExecutionOptions) : Nat :=
  match o.timeout with
  | some t => if t = 0 then 120000 else t
  | none => 120000

/-- Working directory selection: options.workingDir || workspaceRoot. -/
def cwdOf (workspaceRoot : String) (o : CLIExecutionOptions) : String :=
  match o.workingDir with
  | some d => if d = "" then workspaceRoot else d
  | none => workspaceRoot

/-- ClaudeCodeCLIExecutor.execute. -/
def execute (workspaceRoot : String) (o : CLIExecutionOptions) (env : ExecEnv) :
    CLIExecutionResult × List ExecEv :=
  if env.installed = false then
    ({ success := false, output := .null, rawOutput := "", error := some notInstalledMsg }, [])
  else
    match executeWithPrompt workspaceRoot (buildCommandArgs o) o.prompt
        (cwdOf workspaceRoot o) (effectiveTimeout o) env with
    | .error e =>
      ({ success := false, output := .null, rawOutput := "", error := some e }, [])
    | .ok (result, tr) =>
      if o.outputFormat = some .json ∧ result.success then
        match parseJsonOutput result.rawOutput with
        | .ok (v, sid) => ({ result with output := v, sessionId := sid }, tr)
        | .error pe =>
          ({ success := false, output := .null, rawOutput := result.rawOutput,
             error := some ("Failed to parse JSON output: " ++ pe) }, tr)
      else (result, tr)

/-- Options built by ClaudeCodeCLIExecutor.executeFix before delegating
to execute: json output, fix tool allowlist, 10 turns, 3-minute timeout,
then the caller's sessionId/resume spread on top. -/
def fixOptions (prompt : String) (systemPrompt : String) (sessionId : Option String)
    (resume : Bool) : CLIExecutionOptions :=
  { prompt := prompt
    outputFormat := some .json
    allowedTools := some ["Read", "Edit", "Glob", "Grep"]
    appendSystemPrompt := some systemPrompt
    maxTurns := some 10
    timeout := some 180000
    sessionId := sessionId
    resume := resume }

/- ---------------------------------------------------------------------
SessionManager.executeWorkflow.  The prompt builders (external
collaborators from prompts/fix-prompt.ts) and the executor round-trip are
oracles; the executor oracle may also model a thrown rejection
(Except.error), which is what the loop's catch clause handles.  The
options each branch builds (tool allowlists, turn budgets, timeouts,
resume flag and session id) follow the source's switch.
--------------------------------------------------------------------- -/

/-- Prompt-builder collaborators and the security system prompt. -/
structure PromptOracles where
  scanP : Bug → String
  fixP : Bug → String
  testP : Bug → Option Json → String
  docP : Bug → Option Json → String
  sys : String

/-- SessionManager.getStepResult: the stored result of the first step
with the given name, if any. -/
def getStepResult (st : MgrState) (sid : String) (nm : StepName) : Option Json :=
  match mapGet st.sessions sid with
  | none => none
  | some session =>
    match session.steps.find? (fun s => s.name = nm) with
    | some step => step.result
    | none => none

/-- JavaScript truthiness of the running claudeSessionId (!!csid). -/
def csidTruthy : Option String → Bool
  | some s => s != ""
  | none => false

/-- Request built for the scan step. -/
def scanOptions (prompt sys : String) (csid : Option String) : CLIExecutionOptions :=
  { prompt := prompt
    outputFormat := some .json
    appendSystemPrompt := some sys
    allowedTools := some ["Read", "Glob", "Grep"]
    maxTurns := some 15
    timeout := some 300000
    sessionId := csid
    resume := csidTruthy csid }

/-- Request built for the test step. -/
def testOptions (prompt sys : String) (csid : Option String) : CLIExecutionOptions :=
  { prompt := prompt
    outputFormat := some .json
    appendSystemPrompt := some sys
    allowedTools := some ["Read", "Edit", "Glob"]
    maxTurns := some 10
    timeout := some 180000
    sessionId := csid
    resume := csidTruthy csid }

/-- Request built for the document step. -/
def docOptions (prompt sys : String) (csid : Option String) : CLIExecutionOptions :=
  { prompt := prompt
    outputFormat := some .json
    appendSystemPrompt := some sys
    allowedTools := some ["Read"]
    maxTurns := some 5
    timeout := some 120000
    sessionId := csid
    resume := csidTruthy csid }

/-- Request the workflow loop builds for one step, from the running
claudeSessionId and (for test/document) the stored fix result. -/
def buildStepOptions (nm : StepName) (bug : Bug) (po : PromptOracles)
    (csid : Option String) (st : MgrState) (sid : String) : CLIExecutionOptions :=
  match nm with
  | .scan => scanOptions (po.scanP bug) po.sys csid
  | .fix => fixOptions (po.fixP bug) po.sys csid (csidTruthy csid)
  | .test => testOptions (po.testP bug (getStepResult st sid .fix)) po.sys csid
  | .document => docOptions (po.docP bug (getStepResult st sid .fix)) po.sys csid

/-- Outcome of the workflow loop: final state, running claudeSessionId,
normal completion or the propagated thrown error, and the requests built
(in order, including the one whose call threw). -/
structure LoopOut where
  state : MgrState
  csid : Option String
  outcome : Except String Unit
  requests : List CLIExecutionOptions

/-- Body of executeWorkflow's for-loop over the steps.  startStep sits
outside the try block (its throw propagates directly); the executor call
and completeStep sit inside it — a rejection there runs failStep and
rethrows, stopping the loop. -/
def execLoop (bug : Bug) (po : PromptOracles)
    (exec : CLIExecutionOptions → Except String CLIExecutionResult)
    (sid : String) (now : Nat) (diskOk : Bool) :
    List StepName → Nat → Option String → MgrState → LoopOut
  | [], _, csid, st => { state := st, csid := csid, outcome := .ok (), requests := [] }
  | nm :: rest, i, csid, st =>
    match startStep sid i now diskOk st with
    | .error e => { state := st, csid := csid, outcome := .error e, requests := [] }
    | .ok st1 =>
      let opts := buildStepOptions nm bug po csid st1 sid
      match exec opts with
      | .error e =>
        let st2 := ((failStep sid i e now diskOk st1).toOption).getD st1
        { state := st2, csid := csid, outcome := .error e, requests := [opts] }
      | .ok r =>
        let csid' := orTruthy r.sessionId csid
        match completeStep sid i r.output csid' now diskOk st1 with
        | .error e =>
          let st2 := ((failStep sid i e now diskOk st1).toOption).getD st1
          { state := st2, csid := csid', outcome := .error e, requests := [opts] }
        | .ok st2 =>
          let res := execLoop bug po exec sid now diskOk rest (i + 1) csid' st2
          { state := res.state, csid := res.csid, outcome := res.outcome,
            requests := opts :: res.requests }

/-- Result of one executeWorkflow call: final manager state, the
returned session or the propagated failure, and the executor requests
that were built. -/
structure WorkflowRun where
  state : MgrState
  result : Except String WorkflowSession
  requests : List CLIExecutionOptions

/-- SessionManager.executeWorkflow: create the session, mark it started,
run every step in order (stopping on a thrown rejection), and return the
final session snapshot. -/
def executeWorkflow (bug : Bug) (po : PromptOracles)
    (exec : CLIExecutionOptions → Except String CLIExecutionResult)
    (steps : List StepName) (sid : String) (now : Nat) (diskOk : Bool)
    (st : MgrState) : WorkflowRun :=
  let c := createSession bug steps sid now diskOk st
  match startSession sid now diskOk c.2 with
  | .error e => { state := c.2, result := .error e, requests := [] }
  | .ok st1 =>
    let r := execLoop bug po exec sid now diskOk steps 0 none st1
    match r.outcome with
    | .error e => { state := r.state, result := .error e, requests := r.requests }
    | .ok _ =>
      match mapGet r.state.sessions sid with
      | some s => { state := r.state, result := .ok s, requests := r.requests }
      | none => { state := r.state, result := .error "session not found", requests := r.requests }

/- ---------------------------------------------------------------------
Helper lemmas about the state containers and step updates.
--------------------------------------------------------------------- -/

theorem mapGet_mapSet_self {α : Type} (m : List (String × α)) (k : String) (v : α) :
    mapGet (mapSet m k v) k = some v := by
  induction m with
  | nil => simp [mapSet, mapGet]
  | cons hd t ih =>
    obtain ⟨k', v'⟩ := hd
    by_cases hk : k' = k <;> simp [mapSet, mapGet, hk, ih]

theorem saveSession_sessions (d : Bool) (s : WorkflowSession) (st : MgrState) :
    (saveSession d s st).sessions = st.sessions := by
  unfold saveSession
  split <;> rfl

theorem saveSet_sessions (d : Bool) (sid : String) (s' : WorkflowSession) (st : MgrState) :
    (saveSet d sid s' st).sessions = mapSet st.sessions sid s' := by
  unfold saveSet
  rw [saveSession_sessions]

theorem mapGet_saveSet (d : Bool) (sid : String) (s' : WorkflowSession) (st : MgrState) :
    mapGet (saveSet d sid s' st).sessions sid = some s' := by
  rw [saveSet_sessions]
  exact mapGet_mapSet_self _ _ _

theorem startSession_eq (sid : String) (now : Nat) (d : Bool) (st : MgrState)
    (sess : WorkflowSession) (hs : mapGet st.sessions sid = some sess) :
    startSession sid now d st
      = .ok (saveSet d sid { sess with status := .in_progress, updatedAt := now } st) := by
  simp only [startSession, hs]

theorem startStep_eq (sid : String) (i : Nat) (now : Nat) (d : Bool) (st : MgrState)
    (sess : WorkflowSession) (w : WorkflowStep)
    (hs : mapGet st.sessions sid = some sess) (hg : sess.steps.get? i = some w) :
    startStep sid i now d st = .ok (saveSet d sid (startStepSession sess i now) st) := by
  simp only [startStep, hs, hg]

theorem completeStep_eq (sid : String) (i : Nat) (r : Json) (c : Option String)
    (now : Nat) (d : Bool) (st : MgrState) (sess : WorkflowSession) (w : WorkflowStep)
    (hs : mapGet st.sessions sid = some sess) (hg : sess.steps.get? i = some w) :
    completeStep sid i r c now d st
      = .ok (saveSet d sid (completeStepSession sess i r c now) st) := by
  simp only [completeStep, hs, hg]

theorem failStep_eq (sid : String) (i : Nat) (e : String) (now : Nat) (d : Bool)
    (st : MgrState) (sess : WorkflowSession) (w : WorkflowStep)
    (hs : mapGet st.sessions sid = some sess) (hg : sess.steps.get? i = some w) :
    failStep sid i e now d st = .ok (saveSet d sid (failStepSession sess i e now) st) := by
  simp only [failStep, hs, hg]

theorem skipStep_eq (sid : String) (i : Nat) (now : Nat) (d : Bool)
    (st : MgrState) (sess : WorkflowSession) (w : WorkflowStep)
    (hs : mapGet st.sessions sid = some sess) (hg : sess.steps.get? i = some w) :
    skipStep sid i now d st = .ok (saveSet d sid (skipStepSession sess i now) st) := by
  simp only [skipStep, hs, hg]

theorem setStep_length (steps : List WorkflowStep) (i : Nat) (f : WorkflowStep → WorkflowStep) :
    (setStep steps i f).length = steps.length := by
  induction steps generalizing i with
  | nil => rfl
  | cons w rest ih =>
    cases i with
    | zero => rfl
    | succ j => simp [setStep, ih]

theorem setStep_get?_self (steps : List WorkflowStep) (i : Nat)
    (f : WorkflowStep → WorkflowStep) (w : WorkflowStep) (h : steps.get? i = some w) :
    (setStep steps i f).get? i = some (f w) := by
  induction steps generalizing i with
  | nil => exact Option.noConfusion h
  | cons hd rest ih =>
    cases i with
    | zero =>
      have hw : hd = w := Option.some.inj h
      subst hw
      rfl
    | succ j => exact ih j h

theorem setStep_get?_ne (steps : List WorkflowStep) (i j : Nat)
    (f : WorkflowStep → WorkflowStep) (h : j ≠ i) :
    (setStep steps i f).get? j = steps.get? j := by
  induction steps generalizing i j with
  | nil => rfl
  | cons hd rest ih =>
    cases i with
    | zero =>
      cases j with
      | zero => exact absurd rfl h
      | succ j' => rfl
    | succ i' =>
      cases j with
      | zero => rfl
      | succ j' => exact ih i' j' (fun he => h (by omega))

theorem setStep_all {P : WorkflowStep → Prop} (steps : List WorkflowStep) (i : Nat)
    (f : WorkflowStep → WorkflowStep)
    (h : ∀ w ∈ steps, P w) (hf : ∀ w ∈ steps, P (f w)) :
    ∀ w ∈ setStep steps i f, P w := by
  induction steps generalizing i with
  | nil => intro w hw; simp only [setStep] at hw; cases hw
  | cons hd rest ih =>
    cases i with
    | zero =>
      intro w hw
      simp only [setStep] at hw
      rcases List.mem_cons.mp hw with h1 | h1
      · subst h1; exact hf hd (List.mem_cons_self _ _)
      · exact h w (List.mem_cons_of_mem _ h1)
    | succ j =>
      intro w hw
      simp only [setStep] at hw
      rcases List.mem_cons.mp hw with h1 | h1
      · exact h1 ▸ h hd (List.mem_cons_self _ _)
      · exact ih j (fun w hw => h w (List.mem_cons_of_mem _ hw))
          (fun w hw => hf w (List.mem_cons_of_mem _ hw)) w h1

/-- Failure test over the step list. -/
def anyFailed (steps : List WorkflowStep) : Bool :=
  steps.any (fun w => w.status = .failed)

/-- Derived-consistency invariant from the specification's data-model
section: the session status is Completed exactly when every step is
Completed or Skipped, and Failed exactly when some step is Failed. -/
def derivedConsistent (s : WorkflowSession) : Prop :=
  (s.status = .completed ↔ allCompletedOrSkipped s.steps = true)
  ∧ (s.status = .failed ↔ anyFailed s.steps = true)

theorem allCS_iff (steps : List WorkflowStep) :
    allCompletedOrSkipped steps = true ↔
      ∀ w ∈ steps, w.status = .completed ∨ w.status = .skipped := by
  simp [allCompletedOrSkipped, List.all_eq_true]

theorem anyFailed_iff (steps : List WorkflowStep) :
    anyFailed steps = true ↔ ∃ w ∈ steps, w.status = .failed := by
  simp [anyFailed, List.any_eq_true]

instance (s : WorkflowSession) : Decidable (derivedConsistent s) := by
  unfold derivedConsistent
  infer_instance

theorem anyFailed_false_iff (steps : List WorkflowStep) :
    anyFailed steps = false ↔ ∀ w ∈ steps, w.status ≠ .failed := by
  rw [← Bool.not_eq_true, anyFailed_iff]
  push_neg
  rfl

theorem allCS_false_of_get? (steps : List WorkflowStep) (i : Nat) (w : WorkflowStep)
    (h : steps.get? i = some w)
    (hw : w.status ≠ .completed ∧ w.status ≠ .skipped) :
    allCompletedOrSkipped steps = false := by
  rw [← Bool.not_eq_true, allCS_iff]
  intro hall
  rcases hall w (List.get?_mem h) with h1 | h1
  · exact hw.1 h1
  · exact hw.2 h1

/- ---------------------------------------------------------------------
Concrete fixtures for witness and counterexample evaluations.
--------------------------------------------------------------------- -/

/-- Empty manager state. -/
def emptyState : MgrState := { sessions := [], disk := [] }

/-- Concrete subject record. -/
def bugX : Bug := { id := "b1", title := "t1" }

/-- Constant prompt-builder oracles. -/
def promptsX : PromptOracles :=
  { scanP := fun _ => "scan prompt"
    fixP := fun _ => "fix prompt"
    testP := fun _ _ => "test prompt"
    docP := fun _ _ => "doc prompt"
    sys := "sys" }

/-- Placeholder session used as a getD default in fixture projections. -/
def blankSession : WorkflowSession :=
  { id := "", bugId := "", bugTitle := "", steps := [], currentStepIndex := 0,
    status := .pending, createdAt := 0, updatedAt := 0 }

/-- State holding one freshly created single-step session. -/
def skipDemoState : MgrState := (createSession bugX [.scan] "ws1" 0 true emptyState).2

/-- State after skipping that session's only step. -/
def skipDemoAfter : MgrState := (skipStep "ws1" 0 5 true skipDemoState).toOption.getD emptyState

/-- The session after the skip. -/
def skipDemoSession : WorkflowSession := (mapGet skipDemoAfter.sessions "ws1").getD blankSession

/-- C3 counterexample: immediately after a skipStep transition the
session can have every step Skipped while its status is still Pending,
so the claimed "Completed iff every step is Completed or Skipped" clause
of derived consistency is violated right after a transition operation. -/
theorem skipStep_breaksDerivedConsistency :
    allCompletedOrSkipped skipDemoSession.steps = true ∧
    skipDemoSession.status = .pending ∧
    ¬ derivedConsistent skipDemoSession := by
  refine ⟨rfl, rfl, ?_⟩
  intro hc
  exact absurd (hc.1.mpr rfl) (by decide)

theorem anyFailed_setStep_false (steps : List WorkflowStep) (i : Nat)
    (f : WorkflowStep → WorkflowStep) (hf : ∀ w, (f w).status ≠ .failed)
    (h : anyFailed steps = false) : anyFailed (setStep steps i f) = false := by
  rw [anyFailed_false_iff]
  exact setStep_all _ _ _ ((anyFailed_false_iff _).mp h) (fun w _ => hf w)

theorem allCS_setStep_false (steps : List WorkflowStep) (i : Nat)
    (f : WorkflowStep → WorkflowStep) (w : WorkflowStep) (h : steps.get? i = some w)
    (hw : (f w).status ≠ .completed ∧ (f w).status ≠ .skipped) :
    allCompletedOrSkipped (setStep steps i f) = false :=
  allCS_false_of_get? _ i _ (setStep_get?_self _ _ _ _ h) hw

theorem anyFailed_setStep_true (steps : List WorkflowStep) (i : Nat)
    (f : WorkflowStep → WorkflowStep) (w : WorkflowStep) (h : steps.get? i = some w)
    (hw : (f w).status = .failed) : anyFailed (setStep steps i f) = true := by
  rw [anyFailed_iff]
  exact ⟨_, List.get?_mem (setStep_get?_self _ i _ _ h), hw⟩

/-- C3 (amended): startSession, startStep, completeStep and failStep all
preserve derived consistency when applied to a consistent session that
is still active (Pending or InProgress); skipStep is the exception — it
leaves the session status untouched, so consistency can break after it. -/
theorem transitions_preserveDerivedConsistency
    (sid : String) (now : Nat) (d : Bool) (st : MgrState) (sess : WorkflowSession)
    (hs : mapGet st.sessions sid = some sess)
    (hc : derivedConsistent sess)
    (ha : sess.status = .pending ∨ sess.status = .in_progress) :
    (∀ st', startSession sid now d st = .ok st' →
      ∀ s', mapGet st'.sessions sid = some s' → derivedConsistent s')
    ∧ (∀ i st', startStep sid i now d st = .ok st' →
      ∀ s', mapGet st'.sessions sid = some s' → derivedConsistent s')
    ∧ (∀ i r c st', completeStep sid i r c now d st = .ok st' →
      ∀ s', mapGet st'.sessions sid = some s' → derivedConsistent s')
    ∧ (∀ i e st', failStep sid i e now d st = .ok st' →
      ∀ s', mapGet st'.sessions sid = some s' → derivedConsistent s') := by
  have hnc : sess.status ≠ .completed := by
    rcases ha with ha | ha <;> simp [ha]
  have hnf : sess.status ≠ .failed := by
    rcases ha with ha | ha <;> simp [ha]
  have hallf : allCompletedOrSkipped sess.steps = false := by
    rcases Bool.eq_false_or_eq_true (allCompletedOrSkipped sess.steps) with h | h
    · exact absurd (hc.1.mpr h) hnc
    · exact h
  have hanyf : anyFailed sess.steps = false := by
    rcases Bool.eq_false_or_eq_true (anyFailed sess.steps) with h | h
    · exact absurd (hc.2.mpr h) hnf
    · exact h
  refine ⟨?_, ?_, ?_, ?_⟩
  · -- startSession
    intro st' hok s' hs'
    rw [startSession_eq sid now d st sess hs] at hok
    cases hok
    rw [mapGet_saveSet] at hs'
    cases hs'
    exact ⟨by simp [hallf], by simp [hanyf]⟩
  · -- startStep
    intro i st' hok s' hs'
    cases hg : sess.steps.get? i with
    | none =>
      simp only [startStep, hs, hg] at hok
      cases hok
    | some w =>
      rw [startStep_eq sid i now d st sess w hs hg] at hok
      cases hok
      rw [mapGet_saveSet] at hs'
      cases hs'
      have h1 := allCS_setStep_false sess.steps i (startStepUpd now) w hg
        (by constructor <;> simp [startStepUpd])
      have h2 := anyFailed_setStep_false sess.steps i (startStepUpd now)
        (fun w => by simp [startStepUpd]) hanyf
      exact ⟨by simp [startStepSession, h1, hnc], by simp [startStepSession, h2, hnf]⟩
  · -- completeStep
    intro i r c st' hok s' hs'
    cases hg : sess.steps.get? i with
    | none =>
      simp only [completeStep, hs, hg] at hok
      cases hok
    | some w =>
      rw [completeStep_eq sid i r c now d st sess w hs hg] at hok
      cases hok
      rw [mapGet_saveSet] at hs'
      cases hs'
      have h2 := anyFailed_setStep_false sess.steps i (completeStepUpd r c now)
        (fun w => by simp [completeStepUpd]) hanyf
      cases hcs : allCompletedOrSkipped (setStep sess.steps i (completeStepUpd r c now)) with
      | true => exact ⟨by simp [completeStepSession, hcs], by simp [completeStepSession, hcs, h2]⟩
      | false =>
        exact ⟨by simp [completeStepSession, hcs, hnc], by simp [completeStepSession, hcs, h2, hnf]⟩
  · -- failStep
    intro i e st' hok s' hs'
    cases hg : sess.steps.get? i with
    | none =>
      simp only [failStep, hs, hg] at hok
      cases hok
    | some w =>
      rw [failStep_eq sid i e now d st sess w hs hg] at hok
      cases hok
      rw [mapGet_saveSet] at hs'
      cases hs'
      have h1 := allCS_setStep_false sess.steps i (failStepUpd e now) w hg
        (by constructor <;> simp [failStepUpd])
      have h2 := anyFailed_setStep_true sess.steps i (failStepUpd e now) w hg
        (by simp [failStepUpd])
      exact ⟨by simp [failStepSession, h1], by simp [failStepSession, h2]⟩

/-- State after completing the only step of a fresh single-step session. -/
def consAfterState : MgrState :=
  (completeStep "ws1" 0 Json.null none 5 true skipDemoState).toOption.getD emptyState

/-- The session inside that state. -/
def consAfterSession : WorkflowSession :=
  (mapGet consAfterState.sessions "ws1").getD blankSession

/-- Witness: the preservation theorem applied at a concrete input —
completing the only step of a fresh session yields a derived-consistent
session. -/
theorem transitions_preserveDerivedConsistency_witness :
    derivedConsistent consAfterSession := by
  have h := transitions_preserveDerivedConsistency "ws1" 5 true skipDemoState
    (createSession bugX [.scan] "ws1" 0 true emptyState).1 rfl (by decide) (Or.inl rfl)
  exact h.2.2.1 0 Json.null none consAfterState rfl consAfterSession rfl

/-- C10: no transition operation's outcome or in-memory effect depends
on whether its persistence write succeeds — saveSession is issued
without being awaited and swallows any disk error, so every operation
returns the same result and the same in-memory session map under a
failing disk (d = false) as under a healthy one; only the on-disk
contents differ, and no operation ever fails because of the disk. -/
theorem transitions_ignorePersistenceFailure
    (sid : String) (i : Nat) (r : Json) (c : Option String) (e : String)
    (bug : Bug) (steps : List StepName) (now : Nat) (d : Bool) (st : MgrState) :
    ((createSession bug steps sid now d st).1 = (createSession bug steps sid now true st).1
      ∧ (createSession bug steps sid now d st).2.sessions
        = (createSession bug steps sid now true st).2.sessions)
    ∧ (startSession sid now d st).map MgrState.sessions
        = (startSession sid now true st).map MgrState.sessions
    ∧ (startStep sid i now d st).map MgrState.sessions
        = (startStep sid i now true st).map MgrState.sessions
    ∧ (completeStep sid i r c now d st).map MgrState.sessions
        = (completeStep sid i r c now true st).map MgrState.sessions
    ∧ (failStep sid i e now d st).map MgrState.sessions
        = (failStep sid i e now true st).map MgrState.sessions
    ∧ (skipStep sid i now d st).map MgrState.sessions
        = (skipStep sid i now true st).map MgrState.sessions
    ∧ (cancelSession sid now d st).map MgrState.sessions
        = (cancelSession sid now true st).map MgrState.sessions := by
  have hs : ∀ (s : WorkflowSession) (stx : MgrState),
      (saveSession d s stx).sessions = (saveSession true s stx).sessions := by
    intro s stx
    rw [saveSession_sessions, saveSession_sessions]
  refine ⟨⟨rfl, hs _ _⟩, ?_, ?_, ?_, ?_, ?_, ?_⟩
  · cases hm : mapGet st.sessions sid with
    | none => simp [startSession, hm]
    | some sess => simp [startSession, hm, Except.map, saveSet_sessions]
  · cases hm : mapGet st.sessions sid with
    | none => simp [startStep, hm]
    | some sess =>
      cases hg : sess.steps[i]? with
      | none => simp [startStep, hm, hg]
      | some w => simp [startStep, hm, hg, Except.map, saveSet_sessions]
  · cases hm : mapGet st.sessions sid with
    | none => simp [completeStep, hm]
    | some sess =>
      cases hg : sess.steps[i]? with
      | none => simp [completeStep, hm, hg]
      | some w => simp [completeStep, hm, hg, Except.map, saveSet_sessions]
  · cases hm : mapGet st.sessions sid with
    | none => simp [failStep, hm]
    | some sess =>
      cases hg : sess.steps[i]? with
      | none => simp [failStep, hm, hg]
      | some w => simp [failStep, hm, hg, Except.map, saveSet_sessions]
  · cases hm : mapGet st.sessions sid with
    | none => simp [skipStep, hm]
    | some sess =>
      cases hg : sess.steps[i]? with
      | none => simp [skipStep, hm, hg]
      | some w => simp [skipStep, hm, hg, Except.map, saveSet_sessions]
  · cases hm : mapGet st.sessions sid with
    | none => simp [cancelSession, hm]
    | some sess => simp [cancelSession, hm, Except.map, saveSet_sessions]

theorem get?_some_of_lt (l : List WorkflowStep) (n : Nat) (h : n < l.length) :
    ∃ w, l.get? n = some w := by
  induction l generalizing n with
  | nil => simp at h
  | cons hd t ih =>
    cases n with
    | zero => exact ⟨hd, rfl⟩
    | succ m => exact ih m (Nat.lt_of_succ_lt_succ h)

theorem lt_of_get?_some {l : List WorkflowStep} {n : Nat} {w : WorkflowStep}
    (h : l.get? n = some w) : n < l.length := by
  induction l generalizing n with
  | nil => exact Option.noConfusion h
  | cons hd t ih =>
    cases n with
    | zero => exact Nat.succ_pos _
    | succ m => exact Nat.succ_lt_succ (ih h)

theorem exists_get?_of_mem {l : List WorkflowStep} {w : WorkflowStep} (h : w ∈ l) :
    ∃ n, l.get? n = some w := by
  induction l with
  | nil => cases h
  | cons hd t ih =>
    rcases List.mem_cons.mp h with h1 | h1
    · exact ⟨0, by rw [h1]; rfl⟩
    · obtain ⟨n, hn⟩ := ih h1
      exact ⟨n + 1, hn⟩

theorem completeStepSession_steps (sess : WorkflowSession) (i : Nat) (r : Json)
    (c : Option String) (now : Nat) :
    (completeStepSession sess i r c now).steps
      = setStep sess.steps i (completeStepUpd r c now) := by
  simp only [completeStepSession]
  split <;> rfl

theorem completeStepSession_status (sess : WorkflowSession) (i : Nat) (r : Json)
    (c : Option String) (now : Nat) :
    (completeStepSession sess i r c now).status
      = if allCompletedOrSkipped (setStep sess.steps i (completeStepUpd r c now))
        then .completed else sess.status := by
  simp only [completeStepSession]
  split <;> simp [*]

theorem execLoop_ok_completed (bug : Bug) (po : PromptOracles)
    (exec : CLIExecutionOptions → Except String CLIExecutionResult)
    (sid : String) (now : Nat) (d : Bool) :
    ∀ (names : List StepName) (i : Nat) (csid : Option String) (st : MgrState)
      (sess : WorkflowSession),
      mapGet st.sessions sid = some sess →
      sess.steps.length = i + names.length →
      (∀ j w, sess.steps.get? j = some w → j < i → w.status = .completed) →
      (execLoop bug po exec sid now d names i csid st).outcome = .ok () →
      ∃ sess',
        mapGet (execLoop bug po exec sid now d names i csid st).state.sessions sid = some sess'
        ∧ (∀ w ∈ sess'.steps, w.status = .completed)
        ∧ (names = [] → sess' = sess)
        ∧ (names ≠ [] → sess'.status = .completed) := by
  intro names
  induction names with
  | nil =>
    intro i csid st sess hs hl hpre _
    have hl' : sess.steps.length = i := by
      rw [List.length_nil] at hl
      omega
    refine ⟨sess, ?_, ?_, fun _ => rfl, fun h => absurd rfl h⟩
    · simpa [execLoop] using hs
    · intro w hw
      obtain ⟨n, hn⟩ := exists_get?_of_mem hw
      exact hpre n w hn (by have := lt_of_get?_some hn; omega)
  | cons nm rest ih =>
    intro i csid st sess hs hl hpre hok
    have hl' : sess.steps.length = i + rest.length + 1 := by
      rw [List.length_cons] at hl
      omega
    obtain ⟨w, hg⟩ := get?_some_of_lt sess.steps i (by omega)
    have hg1 : (startStepSession sess i now).steps.get? i = some (startStepUpd now w) := by
      simp only [startStepSession]
      exact setStep_get?_self sess.steps i _ w hg
    simp only [execLoop, startStep_eq sid i now d st sess w hs hg] at hok ⊢
    cases hex : exec (buildStepOptions nm bug po csid
        (saveSet d sid (startStepSession sess i now) st) sid) with
    | error e =>
      simp only [hex] at hok
      exact Except.noConfusion hok
    | ok r =>
      simp only [hex,
        completeStep_eq sid i r.output (orTruthy r.sessionId csid) now d
          (saveSet d sid (startStepSession sess i now) st) (startStepSession sess i now)
          (startStepUpd now w) (mapGet_saveSet d sid _ st) hg1] at hok ⊢
      set S1 := startStepSession sess i now with hS1
      set S2 := completeStepSession S1 i r.output (orTruthy r.sessionId csid) now with hS2
      set st2 := saveSet d sid S2 (saveSet d sid S1 st) with hst2
      have hs2 : mapGet st2.sessions sid = some S2 := mapGet_saveSet d sid _ _
      have hsteps2 : S2.steps = setStep S1.steps i
          (completeStepUpd r.output (orTruthy r.sessionId csid) now) :=
        completeStepSession_steps _ _ _ _ _
      have hl2 : S2.steps.length = (i + 1) + rest.length := by
        rw [hsteps2, setStep_length, hS1]
        simp only [startStepSession]
        rw [setStep_length]
        omega
      have hpre2 : ∀ j w', S2.steps.get? j = some w' → j < i + 1 → w'.status = .completed := by
        intro j w' hj hlt
        rw [hsteps2] at hj
        rcases Nat.lt_or_ge j i with hji | hji
        · rw [setStep_get?_ne _ _ _ _ (by omega)] at hj
          rw [hS1] at hj
          simp only [startStepSession] at hj
          rw [setStep_get?_ne _ _ _ _ (by omega)] at hj
          exact hpre j w' hj hji
        · have hje : j = i := by omega
          subst hje
          rw [setStep_get?_self _ _ _ _ hg1] at hj
          cases hj
          rfl
      obtain ⟨sess', hms', hall', hnil', hcons'⟩ :=
        ih (i + 1) (orTruthy r.sessionId csid) st2 S2 hs2 hl2 hpre2 hok
      refine ⟨sess', hms', hall', fun h => List.noConfusion h, fun _ => ?_⟩
      cases rest with
      | nil =>
        rw [hnil' rfl]
        rw [hS2, completeStepSession_status]
        have hall2 : allCompletedOrSkipped (setStep S1.steps i
            (completeStepUpd r.output (orTruthy r.sessionId csid) now)) = true := by
          rw [allCS_iff]
          intro w2 hw2
          obtain ⟨n, hn⟩ := exists_get?_of_mem hw2
          have hlen : n < i + 1 := by
            have h2 := lt_of_get?_some hn
            rw [setStep_length, hS1] at h2
            simp only [startStepSession] at h2
            rw [setStep_length] at h2
            simp only [List.length_nil] at hl'
            omega
          exact Or.inl (hpre2 n w2 (by rw [hsteps2]; exact hn) hlen)
        rw [hall2]
        simp
      | cons nm2 rest2 => exact hcons' (fun h => List.noConfusion h)

/-- Projection of a workflow run to the returned session's status and
its steps' statuses (none when the run rejected). -/
def runSummary (r : WorkflowRun) : Option (SessionStatus × List StepStatus) :=
  match r.result with
  | .ok s => some (s.status, s.steps.map (fun w => w.status))
  | .error _ => none

/-- Executor oracle that resolves every call with success = false, the
way execute reports every executor-level failure. -/
def failingExec : CLIExecutionOptions → Except String CLIExecutionResult :=
  fun _ => .ok { success := false, output := .null, rawOutput := "", error := some "boom" }

/-- Executor oracle that resolves every call successfully. -/
def succeedingExec : CLIExecutionOptions → Except String CLIExecutionResult :=
  fun _ => .ok { success := true, output := .null, rawOutput := "" }

/-- C1 (code-bug evidence): executeWorkflow never consults the success
flag of the executor result, and execute resolves (never rejects) on
executor-level failures — so when every executor call fails with
success = false, each step is still marked Completed (with null output),
no step is failed, the loop runs through all steps, the session ends
Completed and the call returns normally instead of rejecting after a
persisted failure.  The loop's failStep/catch machinery is unreachable
for executor-level failures. -/
theorem executeWorkflow_failedExecutorCall_marksStepCompleted :
    runSummary (executeWorkflow bugX promptsX failingExec [.scan, .fix, .test]
        "ws1" 0 true emptyState)
      = some (.completed, [.completed, .completed, .completed]) := by
  rfl

/-- C2 counterexample: executeWorkflow on an empty step list returns a
session with zero steps whose status is InProgress, not the claimed
Completed — startSession sets InProgress and no completeStep ever runs
to recompute the status.  (Vacuously, every step of that session is
Completed, but the session status contradicts the claim.) -/
theorem executeWorkflow_emptySteps_notCompleted :
    runSummary (executeWorkflow bugX promptsX succeedingExec [] "ws1" 0 true emptyState)
      = some (.in_progress, [])
    ∧ SessionStatus.in_progress ≠ SessionStatus.completed := by
  exact ⟨rfl, by decide⟩

/-- C2 (amended): whenever executeWorkflow returns normally, every step
of the returned session is Completed and, when the step list is
nonempty, the session status is Completed; with an empty step list the
returned session has zero steps and status InProgress (not Completed). -/
theorem executeWorkflow_normalReturn_statuses
    (bug : Bug) (po : PromptOracles)
    (exec : CLIExecutionOptions → Except String CLIExecutionResult)
    (steps : List StepName) (sid : String) (now : Nat) (d : Bool) (st : MgrState)
    (s : WorkflowSession)
    (h : (executeWorkflow bug po exec steps sid now d st).result = .ok s) :
    (steps = [] → s.steps = [] ∧ s.status = .in_progress)
    ∧ (steps ≠ [] → s.status = .completed ∧ ∀ w ∈ s.steps, w.status = .completed) := by
  simp only [executeWorkflow, createSession,
    startSession_eq sid now d (saveSet d sid (createdSession bug steps sid now) st)
      (createdSession bug steps sid now) (mapGet_saveSet d sid _ st)] at h
  cases hout : (execLoop bug po exec sid now d steps 0 none
      (saveSet d sid
        { createdSession bug steps sid now with status := .in_progress, updatedAt := now }
        (saveSet d sid (createdSession bug steps sid now) st))).outcome with
  | error e => simp [hout] at h
  | ok u =>
    cases u
    obtain ⟨sess', hms', hall', hnil', hcons'⟩ :=
      execLoop_ok_completed bug po exec sid now d steps 0 none
        (saveSet d sid
          { createdSession bug steps sid now with status := .in_progress, updatedAt := now }
          (saveSet d sid (createdSession bug steps sid now) st))
        { createdSession bug steps sid now with status := .in_progress, updatedAt := now }
        (mapGet_saveSet d sid _ _)
        (by simp [createdSession])
        (fun j w _ hj => absurd hj (Nat.not_lt_zero j))
        hout
    rw [hout] at h
    simp only [hms'] at h
    simp only [Except.ok.injEq] at h
    subst h
    constructor
    · intro he
      subst he
      rw [hnil' rfl]
      simp [createdSession]
    · intro hne
      exact ⟨hcons' hne, hall'⟩

/-- Concrete single-step run with a succeeding executor. -/
def normRun : WorkflowRun :=
  executeWorkflow bugX promptsX succeedingExec [.scan] "ws1" 0 true emptyState

/-- Session returned by that run. -/
def normRunSession : WorkflowSession := normRun.result.toOption.getD blankSession

/-- Witness: applying the normal-return theorem to a concrete one-step
run shows its session finishes Completed. -/
theorem executeWorkflow_normalReturn_statuses_witness :
    normRun.result = .ok normRunSession ∧ normRunSession.status = .completed := by
  refine ⟨rfl, ?_⟩
  exact ((executeWorkflow_normalReturn_statuses bugX promptsX succeedingExec [.scan]
    "ws1" 0 true emptyState normRunSession rfl).2 (by simp)).1

/- ---------------------------------------------------------------------
Continuity chain: the resume/session-id relationship between the
requests a workflow run builds and the results the executor returned for
the earlier requests.
--------------------------------------------------------------------- -/

/-- Session id of a resolved executor result (none for a rejection). -/
def okSid : Except String CLIExecutionResult → Option String
  | .ok r => r.sessionId
  | .error _ => none

/-- Truthy filtering of an optional string: the empty string and absence
both count as "no session id carried". -/
def truthyOpt : Option String → Option String
  | some s => if s = "" then none else some s
  | none => none

theorem orTruthy_eq_or (u old : Option String) :
    orTruthy u old = (truthyOpt u).or old := by
  cases u with
  | none => rfl
  | some s =>
    by_cases h : s = "" <;> simp [orTruthy, truthyOpt, h, Option.or]

theorem truthyOpt_ne_empty {u : Option String} {S : String}
    (h : truthyOpt u = some S) : S ≠ "" := by
  cases u with
  | none => exact Option.noConfusion h
  | some s =>
    by_cases hs : s = "" <;> simp [truthyOpt, hs] at h
    intro he
    exact hs (h ▸ he)

/-- Running claudeSessionId after a list of requests, folding each
request's executor result into the chain the way the loop does. -/
def chainAcc (exec : CLIExecutionOptions → Except String CLIExecutionResult)
    (csid : Option String) (reqs : List CLIExecutionOptions) : Option String :=
  reqs.foldl (fun acc o => orTruthy (okSid (exec o)) acc) csid

/-- Chain relation on a request list: each request carries the running
claudeSessionId as sessionId and its truthiness as resume, and the next
requests continue from the updated chain value. -/
def reqChain (exec : CLIExecutionOptions → Except String CLIExecutionResult) :
    Option String → List CLIExecutionOptions → Prop
  | _, [] => True
  | csid, o :: rest =>
    o.sessionId = csid ∧ o.resume = csidTruthy csid ∧
    reqChain exec (orTruthy (okSid (exec o)) csid) rest

theorem buildStepOptions_fields (nm : StepName) (bug : Bug) (po : PromptOracles)
    (csid : Option String) (st : MgrState) (sid : String) :
    (buildStepOptions nm bug po csid st sid).sessionId = csid ∧
    (buildStepOptions nm bug po csid st sid).resume = csidTruthy csid := by
  cases nm <;> simp [buildStepOptions, scanOptions, fixOptions, testOptions, docOptions]

theorem execLoop_reqChain (bug : Bug) (po : PromptOracles)
    (exec : CLIExecutionOptions → Except String CLIExecutionResult)
    (sid : String) (now : Nat) (d : Bool) :
    ∀ (names : List StepName) (i : Nat) (csid : Option String) (st : MgrState),
      reqChain exec csid (execLoop bug po exec sid now d names i csid st).requests := by
  intro names
  induction names with
  | nil => intro i csid st; simp [execLoop, reqChain]
  | cons nm rest ih =>
    intro i csid st
    rw [execLoop]
    cases hst : startStep sid i now d st with
    | error e => simp [reqChain]
    | ok st1 =>
      cases hex : exec (buildStepOptions nm bug po csid st1 sid) with
      | error e =>
        simp only [hex]
        exact ⟨(buildStepOptions_fields nm bug po csid st1 sid).1,
          (buildStepOptions_fields nm bug po csid st1 sid).2, trivial⟩
      | ok r =>
        simp only [hex]
        cases hcs : completeStep sid i r.output (orTruthy r.sessionId csid) now d st1 with
        | error e =>
          simp only [hcs]
          exact ⟨(buildStepOptions_fields nm bug po csid st1 sid).1,
            (buildStepOptions_fields nm bug po csid st1 sid).2, trivial⟩
        | ok st2 =>
          simp only [hcs]
          refine ⟨(buildStepOptions_fields nm bug po csid st1 sid).1,
            (buildStepOptions_fields nm bug po csid st1 sid).2, ?_⟩
          have : okSid (exec (buildStepOptions nm bug po csid st1 sid)) = r.sessionId := by
            rw [hex]; rfl
          rw [this]
          exact ih (i + 1) (orTruthy r.sessionId csid) st2

theorem get?_take_eq {α : Type} (l : List α) :
    ∀ (n k : Nat), k < n → (l.take n).get? k = l.get? k := by
  induction l with
  | nil => intro n k _; simp
  | cons hd t ih =>
    intro n k hk
    cases n with
    | zero => exact absurd hk (Nat.not_lt_zero k)
    | succ m =>
      cases k with
      | zero => rfl
      | succ k' => exact ih m k' (Nat.lt_of_succ_lt_succ hk)

theorem reqChain_get? (exec : CLIExecutionOptions → Except String CLIExecutionResult) :
    ∀ (reqs : List CLIExecutionOptions) (csid : Option String), reqChain exec csid reqs →
      ∀ (j : Nat) (o : CLIExecutionOptions), reqs.get? j = some o →
        o.sessionId = chainAcc exec csid (reqs.take j) ∧
        o.resume = csidTruthy (chainAcc exec csid (reqs.take j)) := by
  intro reqs
  induction reqs with
  | nil => intro csid _ j o hj; exact Option.noConfusion hj
  | cons hd t ih =>
    intro csid hchain j o hj
    obtain ⟨h1, h2, h3⟩ := hchain
    cases j with
    | zero =>
      cases hj
      exact ⟨h1, h2⟩
    | succ j' =>
      have := ih (orTruthy (okSid (exec hd)) csid) h3 j' o hj
      simpa [chainAcc, List.take_succ_cons, List.foldl_cons] using this

theorem chainAcc_const (exec : CLIExecutionOptions → Except String CLIExecutionResult) :
    ∀ (l : List CLIExecutionOptions) (a : Option String),
      (∀ k q, l.get? k = some q → truthyOpt (okSid (exec q)) = none) →
      chainAcc exec a l = a := by
  intro l
  induction l with
  | nil => intro a _; rfl
  | cons hd t ih =>
    intro a hnone
    have h0 : truthyOpt (okSid (exec hd)) = none := hnone 0 hd rfl
    have hstep : orTruthy (okSid (exec hd)) a = a := by
      rw [orTruthy_eq_or, h0]
      rfl
    calc chainAcc exec a (hd :: t)
        = chainAcc exec (orTruthy (okSid (exec hd)) a) t := rfl
      _ = chainAcc exec a t := by rw [hstep]
      _ = a := ih a (fun k q hk => hnone (k + 1) q hk)

theorem chainAcc_last_truthy (exec : CLIExecutionOptions → Except String CLIExecutionResult) :
    ∀ (l : List CLIExecutionOptions) (csid : Option String) (i : Nat)
      (q : CLIExecutionOptions) (S : String),
      l.get? i = some q → truthyOpt (okSid (exec q)) = some S →
      (∀ k q', i < k → l.get? k = some q' → truthyOpt (okSid (exec q')) = none) →
      chainAcc exec csid l = some S := by
  intro l
  induction l with
  | nil => intro csid i q S hq _ _; exact Option.noConfusion hq
  | cons hd t ih =>
    intro csid i q S hq htr hnone
    cases i with
    | zero =>
      have hq' : hd = q := Option.some.inj hq
      have htr' : truthyOpt (okSid (exec hd)) = some S := by rw [hq']; exact htr
      have hstep : orTruthy (okSid (exec hd)) csid = some S := by
        rw [orTruthy_eq_or, htr']
        rfl
      calc chainAcc exec csid (hd :: t)
          = chainAcc exec (orTruthy (okSid (exec hd)) csid) t := rfl
        _ = chainAcc exec (some S) t := by rw [hstep]
        _ = some S := chainAcc_const exec t (some S)
            (fun k q' hk => hnone (k + 1) q' (Nat.succ_pos k) hk)
    | succ i' =>
      exact ih (orTruthy (okSid (exec hd)) csid) i' q S hq htr
        (fun k q' hik hk => hnone (k + 1) q' (Nat.succ_lt_succ hik) hk)

theorem get?_lt_length {α : Type} : ∀ {l : List α} {n : Nat} {a : α},
    l.get? n = some a → n < l.length := by
  intro l
  induction l with
  | nil => intro n a h; exact Option.noConfusion h
  | cons hd t ih =>
    intro n a h
    cases n with
    | zero => exact Nat.succ_pos _
    | succ m => exact Nat.succ_lt_succ (ih h)

theorem executeWorkflow_requests_eq (bug : Bug) (po : PromptOracles)
    (exec : CLIExecutionOptions → Except String CLIExecutionResult)
    (steps : List StepName) (sid : String) (now : Nat) (d : Bool) (st : MgrState) :
    (executeWorkflow bug po exec steps sid now d st).requests
      = (execLoop bug po exec sid now d steps 0 none
          (saveSet d sid
            { createdSession bug steps sid now with status := .in_progress, updatedAt := now }
            (saveSet d sid (createdSession bug steps sid now) st))).requests := by
  simp only [executeWorkflow, createSession,
    startSession_eq sid now d (saveSet d sid (createdSession bug steps sid now) st)
      (createdSession bug steps sid now) (mapGet_saveSet d sid _ st)]
  split
  · rfl
  · split <;> rfl

/-- C4: in every workflow run, each built request carries the running
claudeSessionId: before any step's executor result has carried a truthy
session id the request has resume = false and no session id, and once
some step's result carried id S — with no later step overriding it — the
following requests are built with resume = true and that same id. -/
theorem executeWorkflow_continuityChain
    (bug : Bug) (po : PromptOracles)
    (exec : CLIExecutionOptions → Except String CLIExecutionResult)
    (steps : List StepName) (sid : String) (now : Nat) (d : Bool) (st : MgrState) :
    ∀ (j : Nat) (o : CLIExecutionOptions),
      (executeWorkflow bug po exec steps sid now d st).requests.get? j = some o →
      ((∀ k q, k < j →
          (executeWorkflow bug po exec steps sid now d st).requests.get? k = some q →
          truthyOpt (okSid (exec q)) = none) →
        o.resume = false ∧ o.sessionId = none)
      ∧ (∀ i2 p S, i2 < j →
          (executeWorkflow bug po exec steps sid now d st).requests.get? i2 = some p →
          truthyOpt (okSid (exec p)) = some S →
          (∀ k q, i2 < k → k < j →
            (executeWorkflow bug po exec steps sid now d st).requests.get? k = some q →
            truthyOpt (okSid (exec q)) = none) →
          o.resume = true ∧ o.sessionId = some S) := by
  intro j o hj
  rw [executeWorkflow_requests_eq] at hj
  have hchain := execLoop_reqChain bug po exec sid now d steps 0 none
    (saveSet d sid
      { createdSession bug steps sid now with status := .in_progress, updatedAt := now }
      (saveSet d sid (createdSession bug steps sid now) st))
  have hpos := reqChain_get? exec _ none hchain j o hj
  constructor
  · intro hn
    have hacc : chainAcc exec none
        ((execLoop bug po exec sid now d steps 0 none
          (saveSet d sid
            { createdSession bug steps sid now with status := .in_progress, updatedAt := now }
            (saveSet d sid (createdSession bug steps sid now) st))).requests.take j) = none := by
      apply chainAcc_const
      intro k q hk
      have hklt : k < j := by
        have h1 := get?_lt_length hk
        rw [List.length_take] at h1
        omega
      rw [get?_take_eq _ j k hklt] at hk
      rw [← executeWorkflow_requests_eq] at hk
      exact hn k q hklt hk
    rw [hacc] at hpos
    exact ⟨hpos.2, hpos.1⟩
  · intro i2 p S hij hp htr hbetween
    rw [executeWorkflow_requests_eq] at hp
    have hacc : chainAcc exec none
        ((execLoop bug po exec sid now d steps 0 none
          (saveSet d sid
            { createdSession bug steps sid now with status := .in_progress, updatedAt := now }
            (saveSet d sid (createdSession bug steps sid now) st))).requests.take j) = some S := by
      apply chainAcc_last_truthy exec _ none i2 p S
      · rw [get?_take_eq _ j i2 hij]
        exact hp
      · exact htr
      · intro k q' hik hk
        have hklt : k < j := by
          have h1 := get?_lt_length hk
          rw [List.length_take] at h1
          omega
        rw [get?_take_eq _ j k hklt] at hk
        rw [← executeWorkflow_requests_eq] at hk
        exact hbetween k q' hik hklt hk
    rw [hacc] at hpos
    refine ⟨?_, hpos.1⟩
    rw [hpos.2]
    simp [csidTruthy]
    exact truthyOpt_ne_empty htr

/-- Executor oracle for the continuity scenario: the first (non-resumed)
call returns external session id S1, later calls return none. -/
def chainExec : CLIExecutionOptions → Except String CLIExecutionResult :=
  fun o => .ok { success := true, output := .null, rawOutput := "",
                 sessionId := if o.resume then none else some "S1" }

/-- Placeholder options record for getD projections. -/
def blankOptions : CLIExecutionOptions := { prompt := "" }

/-- Scenario A run: steps = [scan, fix], scan's result carries S1. -/
def chainRun : WorkflowRun :=
  executeWorkflow bugX promptsX chainExec [.scan, .fix] "ws1" 0 true emptyState

/-- First request of that run (the scan request). -/
def chainReq0 : CLIExecutionOptions := (chainRun.requests.get? 0).getD blankOptions

/-- Second request of that run (the fix request). -/
def chainReq1 : CLIExecutionOptions := (chainRun.requests.get? 1).getD blankOptions

/-- Witness (Scenario A): after scan returns externalSessionId S1, the
fix request is built with resume = true and sessionId = S1. -/
theorem executeWorkflow_continuityChain_witness :
    chainReq1.resume = true ∧ chainReq1.sessionId = some "S1" := by
  have h := executeWorkflow_continuityChain bugX promptsX chainExec [.scan, .fix]
    "ws1" 0 true emptyState 1 chainReq1 rfl
  exact h.2 0 chainReq0 "S1" (by decide) rfl rfl
    (fun k q hk1 hk2 _ => absurd hk2 (by omega))

/- ---------------------------------------------------------------------
Executor theorems: prompt offload (C6), timeout (C7), returned failures
(C8) and json-mode parsing (C5).
--------------------------------------------------------------------- -/

/-- Scratch files created during a call, per the event trace. -/
def createdFiles (tr : List ExecEv) : List String :=
  tr.filterMap (fun ev => match ev with
    | .fileCreate p => some p
    | _ => none)

/-- Scratch files deleted during a call, per the event trace. -/
def deletedFiles (tr : List ExecEv) : List String :=
  tr.filterMap (fun ev => match ev with
    | .fileDelete p => some p
    | _ => none)

theorem executeDirectly_no_files (args : List String) (prompt cwd : String)
    (timeout : Nat) (proc : ProcOutcome) :
    createdFiles (executeDirectly args prompt cwd timeout proc).2 = []
    ∧ deletedFiles (executeDirectly args prompt cwd timeout proc).2 = [] := by
  cases proc <;> simp only [executeDirectly] <;> (try split) <;> (try split) <;>
    simp [createdFiles, deletedFiles]

theorem executeDirectly_spawn (args : List String) (prompt cwd : String)
    (timeout : Nat) (proc : ProcOutcome) :
    (executeDirectly args prompt cwd timeout proc).2.head?
      = some (.spawn "claude" (args ++ [prompt]) cwd) := by
  cases proc <;> simp only [executeDirectly] <;> (try split) <;> (try split) <;> simp

/-- C6: a prompt at or below the 6000-character threshold is passed
inline with no scratch file created; a longer prompt (with a healthy
scratch directory) is offloaded — exactly one scratch file named from
the current clock is created, the tool is spawned with the short
wrapper prompt referencing it, and that one file is deleted before the
call returns, on the success, failure and timeout paths alike (the
inner run only resolves); when the scratch write itself fails, the call
rejects having created nothing. -/
theorem executeWithPrompt_offloadAndCleanup
    (workspaceRoot : String) (args : List String) (prompt : String) (cwd : String)
    (timeout : Nat) (env : ExecEnv) :
    (prompt.length ≤ 6000 →
      executeWithPrompt workspaceRoot args prompt cwd timeout env
        = .ok (executeDirectly args prompt cwd timeout env.proc)
      ∧ createdFiles (executeDirectly args prompt cwd timeout env.proc).2 = []
      ∧ deletedFiles (executeDirectly args prompt cwd timeout env.proc).2 = [])
    ∧ (6000 < prompt.length → env.mkdirOk = true → env.writeOk = true →
      executeWithPrompt workspaceRoot args prompt cwd timeout env
        = .ok ((executeDirectly args (wrapperPrompt (tempFilePath workspaceRoot env.now))
                  cwd timeout env.proc).1,
               .fileCreate (tempFilePath workspaceRoot env.now)
                 :: (executeDirectly args (wrapperPrompt (tempFilePath workspaceRoot env.now))
                       cwd timeout env.proc).2
                 ++ [.fileDelete (tempFilePath workspaceRoot env.now)])
      ∧ createdFiles (.fileCreate (tempFilePath workspaceRoot env.now)
            :: (executeDirectly args (wrapperPrompt (tempFilePath workspaceRoot env.now))
                  cwd timeout env.proc).2
            ++ [.fileDelete (tempFilePath workspaceRoot env.now)])
          = [tempFilePath workspaceRoot env.now]
      ∧ deletedFiles (.fileCreate (tempFilePath workspaceRoot env.now)
            :: (executeDirectly args (wrapperPrompt (tempFilePath workspaceRoot env.now))
                  cwd timeout env.proc).2
            ++ [.fileDelete (tempFilePath workspaceRoot env.now)])
          = [tempFilePath workspaceRoot env.now])
    ∧ (6000 < prompt.length → (env.mkdirOk = false ∨ env.writeOk = false) →
      ∃ e, executeWithPrompt workspaceRoot args prompt cwd timeout env = .error e) := by
  refine ⟨?_, ?_, ?_⟩
  · intro hle
    refine ⟨?_, (executeDirectly_no_files args prompt cwd timeout env.proc).1,
      (executeDirectly_no_files args prompt cwd timeout env.proc).2⟩
    unfold executeWithPrompt
    rw [if_neg (by omega)]
  · intro hgt hmk hwr
    refine ⟨?_, ?_, ?_⟩
    · unfold executeWithPrompt executeWithPromptFile
      rw [if_pos hgt, hmk, hwr]
      simp
    · have h0 := (executeDirectly_no_files args
        (wrapperPrompt (tempFilePath workspaceRoot env.now)) cwd timeout env.proc).1
      simp [createdFiles, List.filterMap_append] at h0 ⊢
      exact h0
    · have h0 := (executeDirectly_no_files args
        (wrapperPrompt (tempFilePath workspaceRoot env.now)) cwd timeout env.proc).2
      simp [deletedFiles, List.filterMap_append] at h0 ⊢
      exact h0
  · intro hgt hbad
    unfold executeWithPrompt executeWithPromptFile
    rw [if_pos hgt]
    rcases hbad with hb | hb
    · rw [hb]
      exact ⟨_, rfl⟩
    · rw [hb]
      cases hmk : env.mkdirOk <;> simp

/-- Scenario C prompt: 7000 characters of filler. -/
def bigPrompt : String := String.mk (List.replicate 7000 'x')

theorem length_mk_replicate (n : Nat) (c : Char) :
    (String.mk (List.replicate n c)).length = n := by
  simp [String.length]

/-- Healthy environment whose process exits quickly with code 0. -/
def bigEnv : ExecEnv :=
  { installed := true, mkdirOk := true, writeOk := true, now := 42,
    proc := .closes 10 (some 0) "out" "" "out" }

/-- Witness (Scenario C): the 7000-character prompt takes the
file-offload path; exactly one scratch file is created and it is deleted
within the call. -/
theorem executeWithPrompt_offloadAndCleanup_witness :
    executeWithPrompt "/ws" ["-p"] bigPrompt "/ws" 100 bigEnv
      = .ok ((executeDirectly ["-p"] (wrapperPrompt (tempFilePath "/ws" 42))
                "/ws" 100 bigEnv.proc).1,
             .fileCreate (tempFilePath "/ws" 42)
               :: (executeDirectly ["-p"] (wrapperPrompt (tempFilePath "/ws" 42))
                     "/ws" 100 bigEnv.proc).2
               ++ [.fileDelete (tempFilePath "/ws" 42)])
    ∧ createdFiles (.fileCreate (tempFilePath "/ws" 42)
          :: (executeDirectly ["-p"] (wrapperPrompt (tempFilePath "/ws" 42))
                "/ws" 100 bigEnv.proc).2
          ++ [.fileDelete (tempFilePath "/ws" 42)])
        = [tempFilePath "/ws" 42]
    ∧ deletedFiles (.fileCreate (tempFilePath "/ws" 42)
          :: (executeDirectly ["-p"] (wrapperPrompt (tempFilePath "/ws" 42))
                "/ws" 100 bigEnv.proc).2
          ++ [.fileDelete (tempFilePath "/ws" 42)])
        = [tempFilePath "/ws" 42] := by
  have hlen : 6000 < bigPrompt.length := by
    have h7 : bigPrompt.length = 7000 := length_mk_replicate 7000 'x'
    omega
  exact (executeWithPrompt_offloadAndCleanup "/ws" ["-p"] bigPrompt "/ws" 100 bigEnv).2.1
    hlen rfl rfl

/-- Subprocess still running (or erroring) at the given deadline: no
close/error event strictly before it. -/
def procNotDoneBefore : ProcOutcome → Nat → Prop
  | .closes t _ _ _ _, T => T ≤ t
  | .errs t _ _, T => T ≤ t
  | .hangs _, T => T = T

/-- Options with an explicitly zero timeout. -/
def zeroTimeoutOptions : CLIExecutionOptions := { prompt := "p", timeout := some 0 }

/-- C7 counterexample: a request whose timeout field is set to 0 does
not run with timeout 0 — options.timeout || 120000 treats the set value
0 as falsy, so the effective timeout is the 2-minute default, contrary
to "the timeout is the request's timeout field". -/
theorem effectiveTimeout_zeroTimeout :
    zeroTimeoutOptions.timeout = some 0
    ∧ effectiveTimeout zeroTimeoutOptions = 120000
    ∧ (120000 : Nat) ≠ 0 := ⟨rfl, rfl, by decide⟩

/-- C7 (amended): the effective timeout is the request's timeout field
when set and nonzero, and 120000 ms when the field is unset or zero
(falsy); whenever the subprocess has not exited before the effective
timeout, executeDirectly kills it and resolves success = false with the
timeout-specific message. -/
theorem executeDirectly_timeoutBehaviour
    (args : List String) (prompt cwd : String) (o : CLIExecutionOptions)
    (proc : ProcOutcome) :
    ((o.timeout = none ∨ o.timeout = some 0) → effectiveTimeout o = 120000)
    ∧ (∀ t, o.timeout = some t → t ≠ 0 → effectiveTimeout o = t)
    ∧ (procNotDoneBefore proc (effectiveTimeout o) →
        (executeDirectly args prompt cwd (effectiveTimeout o) proc).1.success = false
        ∧ (executeDirectly args prompt cwd (effectiveTimeout o) proc).1.error
            = some (timeoutMsg (effectiveTimeout o))
        ∧ ExecEv.kill ∈ (executeDirectly args prompt cwd (effectiveTimeout o) proc).2) := by
  refine ⟨?_, ?_, ?_⟩
  · rintro (h | h) <;> simp [effectiveTimeout, h]
  · intro t ht hne
    simp [effectiveTimeout, ht, hne]
  · intro hnd
    cases proc with
    | closes t code stdout stderr sofar =>
      simp only [procNotDoneBefore] at hnd
      simp only [executeDirectly]
      rw [if_neg (by omega)]
      simp
    | errs t msg sofar =>
      simp only [procNotDoneBefore] at hnd
      simp only [executeDirectly]
      rw [if_neg (by omega)]
      simp
    | hangs sofar => simp [executeDirectly]

/-- Scenario B options: timeout = 100 ms. -/
def scenBOptions : CLIExecutionOptions := { prompt := "p", timeout := some 100 }

/-- Witness (Scenario B): with a 100 ms timeout and a process that would
exit only after 5000 ms, the call resolves success = false with the
"Execution timed out after 0.1 seconds" message and the child is killed. -/
theorem executeDirectly_timeoutBehaviour_witness :
    (executeDirectly [] "p" "/ws" (effectiveTimeout scenBOptions)
        (.closes 5000 (some 0) "" "" "")).1.success = false
    ∧ (executeDirectly [] "p" "/ws" (effectiveTimeout scenBOptions)
        (.closes 5000 (some 0) "" "" "")).1.error
        = some (timeoutMsg (effectiveTimeout scenBOptions))
    ∧ ExecEv.kill ∈ (executeDirectly [] "p" "/ws" (effectiveTimeout scenBOptions)
        (.closes 5000 (some 0) "" "" "")).2
    ∧ timeoutMsg (effectiveTimeout scenBOptions) = "Execution timed out after 0.1 seconds" := by
  have h := (executeDirectly_timeoutBehaviour [] "p" "/ws" scenBOptions
    (.closes 5000 (some 0) "" "" "")).2.2
    (show effectiveTimeout scenBOptions ≤ 5000 by decide)
  exact ⟨h.1, h.2.1, h.2.2, rfl⟩

theorem executeDirectly_error_isSome (args : List String) (prompt cwd : String)
    (timeout : Nat) (proc : ProcOutcome)
    (h : (executeDirectly args prompt cwd timeout proc).1.success = false) :
    (executeDirectly args prompt cwd timeout proc).1.error.isSome = true := by
  cases proc <;> simp only [executeDirectly] at h ⊢ <;> (try split_ifs at h ⊢) <;> simp_all

theorem executeWithPrompt_ok_shape (workspaceRoot : String) (args : List String)
    (prompt cwd : String) (timeout : Nat) (env : ExecEnv)
    (res : CLIExecutionResult) (tr : List ExecEv)
    (h : executeWithPrompt workspaceRoot args prompt cwd timeout env = .ok (res, tr)) :
    ∃ p', res = (executeDirectly args p' cwd timeout env.proc).1 := by
  unfold executeWithPrompt executeWithPromptFile at h
  split at h
  · split at h
    · exact Except.noConfusion h
    · split at h
      · exact Except.noConfusion h
      · refine ⟨wrapperPrompt (tempFilePath workspaceRoot env.now), ?_⟩
        simp only [Except.ok.injEq] at h
        injection h with h1 h2
        exact h1.symm
  · refine ⟨prompt, ?_⟩
    simp only [Except.ok.injEq] at h
    rw [h]

/-- Evaluation of execute when the availability probe fails. -/
theorem execute_notInstalled (workspaceRoot : String) (o : CLIExecutionOptions)
    (env : ExecEnv) (h : env.installed = false) :
    execute workspaceRoot o env
      = ({ success := false, output := .null, rawOutput := "",
           error := some notInstalledMsg }, []) := by
  unfold execute
  rw [if_pos h]

/-- Evaluation of execute when the prompt-dispatch layer rejects. -/
theorem execute_err (workspaceRoot : String) (o : CLIExecutionOptions)
    (env : ExecEnv) (e : String) (h1 : env.installed = true)
    (h2 : executeWithPrompt workspaceRoot (buildCommandArgs o) o.prompt
        (cwdOf workspaceRoot o) (effectiveTimeout o) env = .error e) :
    execute workspaceRoot o env
      = ({ success := false, output := .null, rawOutput := "", error := some e }, []) := by
  unfold execute
  rw [if_neg (by simp [h1]), h2]

/-- The json post-processing branch of execute on a dispatched result,
named so proofs can reduce execute stepwise. -/
def postProcess (o : CLIExecutionOptions) (res : CLIExecutionResult)
    (tr : List ExecEv) : CLIExecutionResult × List ExecEv :=
  if o.outputFormat = some .json ∧ res.success then
    match parseJsonOutput res.rawOutput with
    | .ok (v, sid) => ({ res with output := v, sessionId := sid }, tr)
    | .error pe =>
      ({ success := false, output := .null, rawOutput := res.rawOutput,
         error := some ("Failed to parse JSON output: " ++ pe) }, tr)
  else (res, tr)

/-- Evaluation of execute when the prompt-dispatch layer resolves. -/
theorem execute_ok (workspaceRoot : String) (o : CLIExecutionOptions)
    (env : ExecEnv) (res : CLIExecutionResult) (tr : List ExecEv)
    (h1 : env.installed = true)
    (h2 : executeWithPrompt workspaceRoot (buildCommandArgs o) o.prompt
        (cwdOf workspaceRoot o) (effectiveTimeout o) env = .ok (res, tr)) :
    execute workspaceRoot o env = postProcess o res tr := by
  unfold execute postProcess
  rw [if_neg (by simp [h1]), h2]

/-- Evaluation of execute on a dispatched result in json mode whose
payload parses. -/
theorem execute_ok_json_parsed (workspaceRoot : String) (o : CLIExecutionOptions)
    (env : ExecEnv) (res : CLIExecutionResult) (tr : List ExecEv)
    (v : Json) (sid : Option String) (h1 : env.installed = true)
    (h2 : executeWithPrompt workspaceRoot (buildCommandArgs o) o.prompt
        (cwdOf workspaceRoot o) (effectiveTimeout o) env = .ok (res, tr))
    (h3 : o.outputFormat = some .json) (h4 : res.success = true)
    (h5 : parseJsonOutput res.rawOutput = .ok (v, sid)) :
    execute workspaceRoot o env = ({ res with output := v, sessionId := sid }, tr) := by
  rw [execute_ok workspaceRoot o env res tr h1 h2]
  unfold postProcess
  rw [if_pos (And.intro h3 h4), h5]

/-- Evaluation of execute on a dispatched result in json mode whose
payload does not parse. -/
theorem execute_ok_json_failed (workspaceRoot : String) (o : CLIExecutionOptions)
    (env : ExecEnv) (res : CLIExecutionResult) (tr : List ExecEv)
    (e : String) (h1 : env.installed = true)
    (h2 : executeWithPrompt workspaceRoot (buildCommandArgs o) o.prompt
        (cwdOf workspaceRoot o) (effectiveTimeout o) env = .ok (res, tr))
    (h3 : o.outputFormat = some .json) (h4 : res.success = true)
    (h5 : parseJsonOutput res.rawOutput = .error e) :
    execute workspaceRoot o env
      = ({ success := false, output := .null, rawOutput := res.rawOutput,
           error := some ("Failed to parse JSON output: " ++ e) }, tr) := by
  rw [execute_ok workspaceRoot o env res tr h1 h2]
  unfold postProcess
  rw [if_pos (And.intro h3 h4), h5]

/-- Evaluation of execute on a dispatched result outside the json
post-processing path. -/
theorem execute_ok_plain (workspaceRoot : String) (o : CLIExecutionOptions)
    (env : ExecEnv) (res : CLIExecutionResult) (tr : List ExecEv)
    (h1 : env.installed = true)
    (h2 : executeWithPrompt workspaceRoot (buildCommandArgs o) o.prompt
        (cwdOf workspaceRoot o) (effectiveTimeout o) env = .ok (res, tr))
    (h3 : ¬(o.outputFormat = some OutputFormat.json ∧ res.success = true)) :
    execute workspaceRoot o env = (res, tr) := by
  rw [execute_ok workspaceRoot o env res tr h1 h2]
  unfold postProcess
  rw [if_neg h3]

/-- C8: every executor-level failure is returned as a resolved result
with success = false and an error string, never thrown: a failed
availability probe short-circuits with the distinct "not installed"
message and an empty event trace (the real command is never spawned); a
rejection from the prompt-dispatch layer is caught and converted into a
failed result carrying its message; and every result with
success = false carries an error string. -/
theorem execute_failuresAreReturned (workspaceRoot : String) (o : CLIExecutionOptions)
    (env : ExecEnv) :
    (env.installed = false →
      execute workspaceRoot o env
        = ({ success := false, output := .null, rawOutput := "",
             error := some notInstalledMsg }, []))
    ∧ (∀ e, env.installed = true →
        executeWithPrompt workspaceRoot (buildCommandArgs o) o.prompt
          (cwdOf workspaceRoot o) (effectiveTimeout o) env = .error e →
        execute workspaceRoot o env
          = ({ success := false, output := .null, rawOutput := "", error := some e }, []))
    ∧ ((execute workspaceRoot o env).1.success = false →
        (execute workspaceRoot o env).1.error.isSome = true) := by
  refine ⟨?_, ?_, ?_⟩
  · intro h
    exact execute_notInstalled workspaceRoot o env h
  · intro e hinst2 hwp
    exact execute_err workspaceRoot o env e hinst2 hwp
  · intro h
    by_cases hin : env.installed = false
    · rw [execute_notInstalled workspaceRoot o env hin]
      rfl
    · have hinst2 : env.installed = true := by
        cases hi : env.installed
        · exact absurd hi hin
        · rfl
      cases hwp : executeWithPrompt workspaceRoot (buildCommandArgs o) o.prompt
          (cwdOf workspaceRoot o) (effectiveTimeout o) env with
      | error e =>
        rw [execute_err workspaceRoot o env e hinst2 hwp]
        rfl
      | ok pair =>
        obtain ⟨res, tr⟩ := pair
        by_cases hjson : o.outputFormat = some OutputFormat.json ∧ res.success = true
        · cases hpj : parseJsonOutput res.rawOutput with
          | ok vp =>
            obtain ⟨v1, sid1⟩ := vp
            rw [execute_ok_json_parsed workspaceRoot o env res tr v1 sid1 hinst2 hwp
              hjson.1 hjson.2 hpj] at h
            have hfalse : res.success = false := h
            rw [hjson.2] at hfalse
            exact Bool.noConfusion hfalse
          | error pe =>
            rw [execute_ok_json_failed workspaceRoot o env res tr pe hinst2 hwp
              hjson.1 hjson.2 hpj]
            rfl
        · rw [execute_ok_plain workspaceRoot o env res tr hinst2 hwp hjson] at h ⊢
          obtain ⟨p', hp'⟩ := executeWithPrompt_ok_shape workspaceRoot _ _ _ _ env res tr hwp
          rw [hp'] at h ⊢
          exact executeDirectly_error_isSome _ _ _ _ _ h

/-- Environment whose availability probe fails. -/
def noToolEnv : ExecEnv :=
  { installed := false, mkdirOk := true, writeOk := true, now := 0, proc := .hangs "" }

/-- Witness: with the tool unavailable, execute resolves the distinct
"not installed" failure without any spawn event. -/
theorem execute_failuresAreReturned_witness :
    execute "/ws" blankOptions noToolEnv
      = ({ success := false, output := .null, rawOutput := "",
           error := some notInstalledMsg }, []) := by
  exact (execute_failuresAreReturned "/ws" blankOptions noToolEnv).1 rfl

/-- Raw output holding two top-level JSON objects with narrative text
between them. -/
def twoObjectsOutput : String := "\x7b\"a\": 1\x7d and \x7b\"b\": 2\x7d"

/-- C5 counterexample: on output containing two top-level JSON objects,
the first-brace-to-last-brace extraction spans both objects and the
narrative between them, so JSON.parse fails and parseJsonOutput throws —
even though a first top-level JSON object exists and parses fine.  The
implementation therefore does not "locate the first top-level JSON
object". -/
theorem parseJsonOutput_missesFirstTopLevelObject :
    (parseJsonOutput twoObjectsOutput).isOk = false
    ∧ specFirstTopLevelJson twoObjectsOutput.data = some (Json.obj [("a", Json.num 1)])
    ∧ extractJson twoObjectsOutput = some twoObjectsOutput := by
  exact ⟨rfl, rfl, rfl⟩

/-- C5 (amended): in json mode on a successful process result, execute
parses the substring from the first opening brace to the last closing
brace of the raw output (extractJson): if that substring parses, the
parsed value becomes the typed output (with the session id drawn from
its session_id/sessionId members); if extraction or parsing fails, the
result is a distinct parse failure — success = false, an error string
prefixed "Failed to parse JSON output:", and the raw output retained —
separate from any process-level failure. -/
theorem execute_jsonMode_parseBehaviour (workspaceRoot : String) (o : CLIExecutionOptions)
    (env : ExecEnv) (res : CLIExecutionResult) (tr : List ExecEv)
    (hinst : env.installed = true)
    (hwp : executeWithPrompt workspaceRoot (buildCommandArgs o) o.prompt
        (cwdOf workspaceRoot o) (effectiveTimeout o) env = .ok (res, tr))
    (hjson : o.outputFormat = some .json) (hsucc : res.success = true) :
    (∀ v sid, parseJsonOutput res.rawOutput = .ok (v, sid) →
      execute workspaceRoot o env = ({ res with output := v, sessionId := sid }, tr))
    ∧ (∀ e, parseJsonOutput res.rawOutput = .error e →
      execute workspaceRoot o env
        = ({ success := false, output := .null, rawOutput := res.rawOutput,
             error := some ("Failed to parse JSON output: " ++ e) }, tr)) := by
  constructor
  · intro v sid hpj
    exact execute_ok_json_parsed workspaceRoot o env res tr v sid hinst hwp hjson hsucc hpj
  · intro e hpj
    exact execute_ok_json_failed workspaceRoot o env res tr e hinst hwp hjson hsucc hpj

/-- Raw output with narrative noise around a single JSON payload. -/
def jsonOut : String := "noise \x7b\"ok\": true, \"session_id\": \"S1\"\x7d tail"

/-- Environment whose process prints that output and exits 0 quickly. -/
def jsonEnv : ExecEnv :=
  { installed := true, mkdirOk := true, writeOk := true, now := 0,
    proc := .closes 5 (some 0) jsonOut "" jsonOut }

/-- A json-mode request. -/
def jsonOptions : CLIExecutionOptions :=
  { prompt := "p", outputFormat := some .json, timeout := some 100 }

/-- Witness: a successful json-mode run parses the brace-delimited
payload out of the noisy output and lifts its session_id. -/
theorem execute_jsonMode_parseBehaviour_witness :
    execute "/ws" jsonOptions jsonEnv
      = ({ success := true,
           output := Json.obj [("ok", Json.bool true), ("session_id", Json.str "S1")],
           rawOutput := jsonOut, sessionId := some "S1" },
         [.spawn "claude" (buildCommandArgs jsonOptions ++ ["p"]) "/ws"]) := by
  exact (execute_jsonMode_parseBehaviour "/ws" jsonOptions jsonEnv
    { success := true, output := .str jsonOut, rawOutput := jsonOut }
    [.spawn "claude" (buildCommandArgs jsonOptions ++ ["p"]) "/ws"]
    rfl rfl rfl rfl).1
    (Json.obj [("ok", Json.bool true), ("session_id", Json.str "S1")]) (some "S1") rfl

/- ---------------------------------------------------------------------
Persistence round-trip (C9).  The Gregorian calendar model is proved
inverse to itself, the ISO-8601 codec is proved exact on the millisecond
timestamps whose year fits the four-digit rendering, and the session
serializer/deserializer pair is proved to restore every field.
--------------------------------------------------------------------- -/

/-- Every calendar year has at least 365 days. -/
theorem daysInYear_ge (y : Nat) : 365 ≤ daysInYear y := by
  unfold daysInYear
  split <;> omega

/-- Every calendar month has at most 31 days. -/
theorem daysInMonth_le (y m : Nat) : daysInMonth y m ≤ 31 := by
  unfold daysInMonth
  split
  · split <;> omega
  · split <;> omega

/-- No days precede January. -/
theorem monthDays_one (y : Nat) : monthDays y 1 = 0 := rfl

/-- Days before month m+1 are the days before m plus the length of m. -/
theorem monthDays_succ (y m : Nat) (hm : 1 ≤ m) :
    monthDays y (m + 1) = monthDays y m + daysInMonth y m := by
  obtain ⟨k, rfl⟩ : ∃ k, m = k + 1 := ⟨m - 1, by omega⟩
  show monthDays y (k + 2) = monthDays y (k + 1) + daysInMonth y (k + 1)
  rw [monthDays]

/-- The twelve months exactly cover the year. -/
theorem monthDays_13 (y : Nat) : monthDays y 13 = daysInYear y := by
  have e : ∀ m : Nat, 1 ≤ m → monthDays y (m + 1) = monthDays y m + daysInMonth y m :=
    monthDays_succ y
  rw [show (13 : Nat) = 12 + 1 from rfl, e 12 (by omega)]
  rw [show (12 : Nat) = 11 + 1 from rfl, e 11 (by omega)]
  rw [show (11 : Nat) = 10 + 1 from rfl, e 10 (by omega)]
  rw [show (10 : Nat) = 9 + 1 from rfl, e 9 (by omega)]
  rw [show (9 : Nat) = 8 + 1 from rfl, e 8 (by omega)]
  rw [show (8 : Nat) = 7 + 1 from rfl, e 7 (by omega)]
  rw [show (7 : Nat) = 6 + 1 from rfl, e 6 (by omega)]
  rw [show (6 : Nat) = 5 + 1 from rfl, e 5 (by omega)]
  rw [show (5 : Nat) = 4 + 1 from rfl, e 4 (by omega)]
  rw [show (4 : Nat) = 3 + 1 from rfl, e 3 (by omega)]
  rw [show (3 : Nat) = 2 + 1 from rfl, e 2 (by omega)]
  rw [show (2 : Nat) = 1 + 1 from rfl, e 1 (by omega)]
  rw [monthDays_one]
  unfold daysInMonth daysInYear
  cases h : isLeap y <;> simp [h]

/-- The year search peels whole years: its output pair recombines to the
input day count, the residual is inside the found year, and the year only
grows, provided the fuel covers the count. -/
theorem yearFromDays_spec : ∀ fuel y z : Nat, z ≤ fuel * 365 →
    sumYears y ((yearFromDays fuel y z).1 - y) + (yearFromDays fuel y z).2 = z
    ∧ (yearFromDays fuel y z).2 < daysInYear (yearFromDays fuel y z).1
    ∧ y ≤ (yearFromDays fuel y z).1 := by
  intro fuel
  induction fuel with
  | zero =>
    intro y z hz
    have hz0 : z = 0 := by omega
    subst hz0
    have := daysInYear_ge y
    exact ⟨by simp [yearFromDays, sumYears], by simpa [yearFromDays] using by omega,
      by simp [yearFromDays]⟩
  | succ fuel ih =>
    intro y z hz
    by_cases h : z < daysInYear y
    · rw [yearFromDays, if_pos h]
      exact ⟨by simp [sumYears], h, le_refl y⟩
    · have h365 := daysInYear_ge y
      have hrec := ih (y + 1) (z - daysInYear y) (by omega)
      rw [yearFromDays, if_neg h]
      obtain ⟨h1, h2, h3⟩ := hrec
      refine ⟨?_, h2, by omega⟩
      have hsub : (yearFromDays fuel (y + 1) (z - daysInYear y)).1 - y
          = ((yearFromDays fuel (y + 1) (z - daysInYear y)).1 - (y + 1)) + 1 := by omega
      rw [hsub, sumYears]
      omega

/-- The month search peels whole months within the found year. -/
theorem monthFromDays_spec (y : Nat) : ∀ fuel m z : Nat, 1 ≤ m →
    monthDays y m + z < monthDays y (m + fuel) →
    monthDays y (monthFromDays fuel y m z).1 + (monthFromDays fuel y m z).2
      = monthDays y m + z
    ∧ (monthFromDays fuel y m z).2 < daysInMonth y (monthFromDays fuel y m z).1
    ∧ m ≤ (monthFromDays fuel y m z).1
    ∧ (monthFromDays fuel y m z).1 < m + fuel := by
  intro fuel
  induction fuel with
  | zero =>
    intro m z hm hlt
    simp only [Nat.add_zero] at hlt
    omega
  | succ fuel ih =>
    intro m z hm hlt
    by_cases h : z < daysInMonth y m
    · rw [monthFromDays, if_pos h]
      exact ⟨rfl, h, le_refl m, by omega⟩
    · have hsucc := monthDays_succ y m hm
      have harg : monthDays y (m + 1) + (z - daysInMonth y m)
          < monthDays y (m + 1 + fuel) := by
        have he : m + 1 + fuel = m + (fuel + 1) := by omega
        rw [he]
        omega
      have hrec := ih (m + 1) (z - daysInMonth y m) (by omega) harg
      rw [monthFromDays, if_neg h]
      obtain ⟨h1, h2, h3, h4⟩ := hrec
      exact ⟨by omega, h2, by omega, by omega⟩

/-- civilFromDays inverts daysFromCivil and lands on a real calendar
date. -/
theorem civilFromDays_spec (z : Nat) :
    daysFromCivil (civilFromDays z).1 (civilFromDays z).2.1 (civilFromDays z).2.2 = z
    ∧ 1 ≤ (civilFromDays z).2.1 ∧ (civilFromDays z).2.1 ≤ 12
    ∧ 1 ≤ (civilFromDays z).2.2 ∧ (civilFromDays z).2.2 ≤ 31
    ∧ 1970 ≤ (civilFromDays z).1 := by
  have hy := yearFromDays_spec z 1970 z (by omega)
  obtain ⟨hy1, hy2, hy3⟩ := hy
  have harg : monthDays (yearFromDays z 1970 z).1 1 + (yearFromDays z 1970 z).2
      < monthDays (yearFromDays z 1970 z).1 (1 + 12) := by
    rw [show (1 : Nat) + 12 = 13 from rfl, monthDays_13, monthDays_one]
    omega
  have hm := monthFromDays_spec (yearFromDays z 1970 z).1 12 1
    (yearFromDays z 1970 z).2 (by omega) harg
  obtain ⟨hm1, hm2, hm3, hm4⟩ := hm
  have hdm := daysInMonth_le (yearFromDays z 1970 z).1
    (monthFromDays 12 (yearFromDays z 1970 z).1 1 (yearFromDays z 1970 z).2).1
  have hmd1 := monthDays_one (yearFromDays z 1970 z).1
  have hc : civilFromDays z
      = ((yearFromDays z 1970 z).1,
         (monthFromDays 12 (yearFromDays z 1970 z).1 1 (yearFromDays z 1970 z).2).1,
         (monthFromDays 12 (yearFromDays z 1970 z).1 1 (yearFromDays z 1970 z).2).2 + 1) := rfl
  rw [hc]
  unfold daysFromCivil
  dsimp only
  refine ⟨by omega, by omega, by omega, by omega, by omega, by omega⟩

/-- Digit characters decode to their value. -/
theorem digitVal_digitChar (n : Nat) (h : n ≤ 9) : digitVal (digitChar n) = n := by
  interval_cases n <;> decide

/-- Digit characters pass the digit test. -/
theorem isDig_digitChar (n : Nat) (h : n ≤ 9) : isDig (digitChar n) = true := by
  interval_cases n <;> decide

/-- Parsing an ISO string assembled from in-range components recovers
exactly their millisecond combination. -/
theorem msOfIso_mk (y mo d hh mi se ms : Nat)
    (hy : y ≤ 9999) (hmo1 : 1 ≤ mo) (hmo : mo ≤ 12) (hd1 : 1 ≤ d) (hd : d ≤ 31)
    (hhh : hh ≤ 23) (hmi : mi ≤ 59) (hse : se ≤ 59) (hms : ms ≤ 999) :
    msOfIso (String.mk (fourDig y ++ '-' :: twoDig mo ++ '-' :: twoDig d
      ++ 'T' :: twoDig hh ++ ':' :: twoDig mi ++ ':' :: twoDig se
      ++ '.' :: threeDig ms ++ ['Z']))
      = some (msOfComponents y mo d hh mi se ms) := by
  have e1 := digitVal_digitChar (y / 1000) (by omega)
  have e2 := digitVal_digitChar (y / 100 % 10) (by omega)
  have e3 := digitVal_digitChar (y / 10 % 10) (by omega)
  have e4 := digitVal_digitChar (y % 10) (by omega)
  have e15 := digitVal_digitChar (ms / 100) (by omega)
  have e16 := digitVal_digitChar (ms / 10 % 10) (by omega)
  have e17 := digitVal_digitChar (ms % 10) (by omega)
  have e5 := digitVal_digitChar (mo / 10) (by omega)
  have e6 := digitVal_digitChar (mo % 10) (by omega)
  have e7 := digitVal_digitChar (d / 10) (by omega)
  have e8 := digitVal_digitChar (d % 10) (by omega)
  have e9 := digitVal_digitChar (hh / 10) (by omega)
  have e10 := digitVal_digitChar (hh % 10) (by omega)
  have e11 := digitVal_digitChar (mi / 10) (by omega)
  have e12 := digitVal_digitChar (mi % 10) (by omega)
  have e13 := digitVal_digitChar (se / 10) (by omega)
  have e14 := digitVal_digitChar (se % 10) (by omega)
  have f1 := isDig_digitChar (y / 1000) (by omega)
  have f2 := isDig_digitChar (y / 100 % 10) (by omega)
  have f3 := isDig_digitChar (y / 10 % 10) (by omega)
  have f4 := isDig_digitChar (y % 10) (by omega)
  have f5 := isDig_digitChar (mo / 10) (by omega)
  have f6 := isDig_digitChar (mo % 10) (by omega)
  have f7 := isDig_digitChar (d / 10) (by omega)
  have f8 := isDig_digitChar (d % 10) (by omega)
  have f9 := isDig_digitChar (hh / 10) (by omega)
  have f10 := isDig_digitChar (hh % 10) (by omega)
  have f11 := isDig_digitChar (mi / 10) (by omega)
  have f12 := isDig_digitChar (mi % 10) (by omega)
  have f13 := isDig_digitChar (se / 10) (by omega)
  have f14 := isDig_digitChar (se % 10) (by omega)
  have f15 := isDig_digitChar (ms / 100) (by omega)
  have f16 := isDig_digitChar (ms / 10 % 10) (by omega)
  have f17 := isDig_digitChar (ms % 10) (by omega)
  simp only [fourDig, twoDig, threeDig, List.cons_append, List.nil_append]
  rw [msOfIso.eq_def]
  dsimp only
  rw [if_pos ?hc]
  case hc =>
    refine ⟨⟨rfl, rfl, rfl, rfl, rfl, rfl, rfl⟩, ?_, ?_⟩
    · simp [List.all, f1, f2, f3, f4, f5, f6, f7, f8, f9, f10, f11, f12, f13, f14, f15, f16, f17]
    · rw [e5, e6, e7, e8, e9, e10, e11, e12, e13, e14]
      omega
  · have gy : digitVal (digitChar (y / 1000)) * 1000 + digitVal (digitChar (y / 100 % 10)) * 100
        + digitVal (digitChar (y / 10 % 10)) * 10 + digitVal (digitChar (y % 10)) = y := by
      rw [e1, e2, e3, e4]
      omega
    have gmo : digitVal (digitChar (mo / 10)) * 10 + digitVal (digitChar (mo % 10)) = mo := by
      rw [e5, e6]
      omega
    have gd : digitVal (digitChar (d / 10)) * 10 + digitVal (digitChar (d % 10)) = d := by
      rw [e7, e8]
      omega
    have gh : digitVal (digitChar (hh / 10)) * 10 + digitVal (digitChar (hh % 10)) = hh := by
      rw [e9, e10]
      omega
    have gmi : digitVal (digitChar (mi / 10)) * 10 + digitVal (digitChar (mi % 10)) = mi := by
      rw [e11, e12]
      omega
    have gse : digitVal (digitChar (se / 10)) * 10 + digitVal (digitChar (se % 10)) = se := by
      rw [e13, e14]
      omega
    have gms : digitVal (digitChar (ms / 100)) * 100 + digitVal (digitChar (ms / 10 % 10)) * 10
        + digitVal (digitChar (ms % 10)) = ms := by
      rw [e15, e16, e17]
      omega
    rw [gy, gmo, gd, gh, gmi, gse, gms]

/-- Timestamp bound of the codec model: the calendar year fits the
four-digit rendering of toISOString. -/
def yearOk (t : Nat) : Prop := (civilFromDays (t / 86400000)).1 ≤ 9999

/-- Date round-trip: new Date(d.toISOString()).getTime() returns exactly
the original millisecond count (model: years below 10000). -/
theorem msOfIso_isoOfMs (t : Nat) (hy : yearOk t) : msOfIso (isoOfMs t) = some t := by
  obtain ⟨hdc, hm1, hm12, hd1, hd31, h1970⟩ := civilFromDays_spec (t / 86400000)
  unfold isoOfMs
  simp only []
  rw [msOfIso_mk _ _ _ _ _ _ _ hy hm1 hm12 hd1 hd31 (by omega) (by omega) (by omega)
    (by omega)]
  unfold msOfComponents
  rw [hdc, Option.some_inj]
  omega


/-- All timestamps of a step are within the codec model's range. -/
def stepOk (st : WorkflowStep) : Prop :=
  (∀ t, st.startedAt = some t → yearOk t) ∧ (∀ t, st.completedAt = some t → yearOk t)

/-- All timestamps of a session are within the codec model's range. -/
def sessionOk (s : WorkflowSession) : Prop :=
  yearOk s.createdAt ∧ yearOk s.updatedAt ∧ ∀ st ∈ s.steps, stepOk st

/-- Step names round-trip through their string form. -/
theorem stepNameOfStr_roundTrip (n : StepName) : stepNameOfStr (stepNameStr n) = some n := by
  cases n <;> rfl

/-- Step statuses round-trip through their string form. -/
theorem stepStatusOfStr_roundTrip (s : StepStatus) :
    stepStatusOfStr (stepStatusStr s) = some s := by
  cases s <;> rfl

/-- Session statuses round-trip through their string form. -/
theorem sessionStatusOfStr_roundTrip (s : SessionStatus) :
    sessionStatusOfStr (sessionStatusStr s) = some s := by
  cases s <;> rfl

/-- One persisted step deserializes field-for-field identical to the
in-memory step, across every combination of present/absent optional
properties. -/
theorem jsonToStep_stepToJson (st : WorkflowStep) (h : stepOk st) :
    jsonToStep (stepToJson st) = some st := by
  obtain ⟨nm, sst, sid, res, err, sa, ca⟩ := st
  obtain ⟨h1, h2⟩ := h
  simp only [] at h1 h2
  cases sid <;> cases res <;> cases err <;> cases sa <;> cases ca <;>
    simp_all [stepToJson, jsonToStep, optField, jLookup, asStr, optTime,
      stepNameOfStr_roundTrip, stepStatusOfStr_roundTrip, msOfIso_isoOfMs]

/-- Accumulator form of the element-wise round-trip over a list. -/
theorem mapM_loop_roundTrip {α β : Type} (f : α → β) (g : β → Option α)
    (l : List α) (h : ∀ x ∈ l, g (f x) = some x) :
    ∀ acc : List α, List.mapM.loop g (l.map f) acc = some (acc.reverse ++ l) := by
  induction l with
  | nil =>
    intro acc
    simp [List.mapM.loop]
  | cons a l ih =>
    intro acc
    rw [List.map_cons, List.mapM.loop]
    simp only [h a (List.mem_cons_self a l), Option.bind_eq_bind, Option.some_bind]
    rw [ih (fun x hx => h x (List.mem_cons_of_mem a hx)) (a :: acc)]
    simp

/-- A list whose elements individually round-trip round-trips. -/
theorem mapM_map_roundTrip {α β : Type} (f : α → β) (g : β → Option α)
    (l : List α) (h : ∀ x ∈ l, g (f x) = some x) : (l.map f).mapM g = some l := by
  have := mapM_loop_roundTrip f g l h []
  simpa [List.mapM] using this

/-- A serialized session deserializes field-for-field identical to the
in-memory session. -/
theorem jsonToSession_sessionToJson (s : WorkflowSession) (h : sessionOk s) :
    jsonToSession (sessionToJson s) = some s := by
  obtain ⟨id, bugId, bugTitle, steps, idx, stat, ca, ua, csid⟩ := s
  obtain ⟨hca, hua, hsteps⟩ := h
  simp only [] at hca hua hsteps
  have hmapm : (steps.map stepToJson).mapM jsonToStep = some steps :=
    mapM_map_roundTrip stepToJson jsonToStep steps
      (fun st hst => jsonToStep_stepToJson st (hsteps st hst))
  cases csid <;>
    simp_all [sessionToJson, jsonToSession, optField, jLookup, asStr,
      sessionStatusOfStr_roundTrip, msOfIso_isoOfMs, Int.toNat']
instance (t : Nat) : Decidable (yearOk t) := by
  unfold yearOk
  infer_instance

/-- Round-trip fixture: a completed step with every optional property
present. -/
def rtStep : WorkflowStep :=
  { name := .scan
    status := .completed
    sessionId := some "S1"
    result := some (Json.obj [("ok", Json.bool true)])
    error := none
    startedAt := some 1700000000000
    completedAt := some 1700000000123 }

/-- Round-trip fixture: a completed session holding that step. -/
def rtSession : WorkflowSession :=
  { id := "ws1"
    bugId := "b1"
    bugTitle := "crash"
    steps := [rtStep]
    currentStepIndex := 1
    status := .completed
    createdAt := 1700000000000
    updatedAt := 1700000000123
    claudeSessionId := some "S1" }

/-- C9: a session persisted by saveSession (with the disk healthy) and
reloaded through the loadSessions deserializer is field-for-field
identical to the in-memory session before persistence; in particular
createdAt/updatedAt and the per-step startedAt/completedAt round-trip
exactly at millisecond precision (model range: years below 10000, per
sessionOk). -/
theorem session_saveLoad_roundTrip (s : WorkflowSession) (st : MgrState)
    (hok : sessionOk s) :
    (mapGet (saveSession true s st).disk s.id).bind jsonToSession = some s := by
  unfold saveSession
  rw [if_pos rfl]
  dsimp only
  rw [mapGet_mapSet_self, Option.some_bind]
  exact jsonToSession_sessionToJson s hok

/-- Witness: a concrete completed session with all optional fields
present survives the save/load round-trip unchanged. -/
theorem session_saveLoad_roundTrip_witness :
    sessionOk rtSession
    ∧ (mapGet (saveSession true rtSession emptyState).disk rtSession.id).bind jsonToSession
        = some rtSession := by
  have hok : sessionOk rtSession := by
    refine ⟨by decide, by decide, ?_⟩
    intro st hst
    have hst' : st ∈ [rtStep] := hst
    rw [List.mem_singleton] at hst'
    subst hst'
    refine ⟨fun t ht => ?_, fun t ht => ?_⟩
    · have ht' : some 1700000000000 = some t := ht
      cases Option.some.inj ht'
      decide
    · have ht' : some 1700000000123 = some t := ht
      cases Option.some.inj ht'
      decide
  exact ⟨hok, session_saveLoad_roundTrip rtSession emptyState hok⟩
